import Mathlib

/-!
Coffee credit ledger: transactions, offline batch intake and consistency check

A shallow embedding of the server routes of `backend-coffee-server.js` and
`server-js-completion.js`, and of the queue and user-list updates of the
terminal application (`coffee-app-js.js`, `production-coffee-app.js`).

Modelling conventions.

* A MongoDB collection is a `List` of documents in insertion order.
* `ObjectId`s are natural numbers; every id that reaches a handler is a
  well-formed id (cast errors of `findById` are outside the model).
* JavaScript `Number`s that hold credit and amounts are `Int` in the documents
  of the store (the ledger works in whole currency units). The consistency
  check compares with a tolerance of 0.01, which whole numbers never meet, so
  its test `inconsistent` is on rationals and the job is also given on
  documents with rational credit and amounts (`consistencyCheckOn`); on a store
  of whole numbers the two agree (`consistencyCheckOn_toAudit`).
* `undefined` request fields are `none`; a falsy string field is `none` or `""`.
* `new Date()` is the argument `now`; dates are natural numbers.
* A handler returns the store after the request together with the HTTP
  response. A thrown exception inside `try` is the `none` of an `Option`.
* Writes made with `{ session }` belong to the open transaction: they become
  part of the store at `commitTransaction` and are dropped at
  `abortTransaction`. Reads made with `.session(session)` see them, reads made
  without a session see the committed collections only.
* Failures of the storage engine itself and of the cache client are outside
  the model, except in `postTransactionsUnder`, where each call of the `try`
  block can be made to throw.
-/

namespace Coffee

/-! ## Documents -/

abbrev ObjectId := Nat

/-- A document of `userSchema`. -/
structure User where
  id : ObjectId
  name : String
  rfid : String
  credit : Int
  isAdmin : Bool
  createdAt : Nat
  updatedAt : Nat
  lastActivity : Option Nat
  active : Bool
deriving DecidableEq, Repr

/-- A document of `transactionSchema` (the server-generated `_id` is left out). -/
structure Transaction where
  userId : ObjectId
  type : String
  amount : Int
  item : Option String
  balance : Int
  terminalId : String
  offlineId : Option String
  timestamp : Nat
  synced : Bool
deriving DecidableEq, Repr

/-- A document of `terminalSchema`. -/
structure Terminal where
  terminalId : String
  description : Option String
  lastSeen : Nat
  status : String
deriving DecidableEq, Repr

/-- A document of `coffeeOptionSchema`. -/
structure CoffeeOption where
  id : ObjectId
  name : String
  price : Int
  active : Bool
  createdAt : Nat
  updatedAt : Nat
deriving DecidableEq, Repr

/-- The four collections the routes read and write. -/
structure Store where
  users : List User
  transactions : List Transaction
  terminals : List Terminal
  coffeeOptions : List CoffeeOption
deriving DecidableEq, Repr

/-! ## Collection queries -/

/-- JavaScript truthiness of an optional string field: `undefined` and `""` are falsy. -/
def truthy : Option String → Bool
  | none => false
  | some v => v != ""

/-- The query `User.findById(userId)`; an `undefined` id finds nothing. -/
def findById (users : List User) : Option ObjectId → Option User
  | none => none
  | some uid => users.find? (fun u => u.id == uid)

/-- The query `Transaction.findOne({ offlineId })`. An `undefined` key is sent
as `null` and matches the entries that carry no `offlineId`. -/
def findOneByOfflineId (txs : List Transaction) (offlineId : Option String) :
    Option Transaction :=
  txs.find? (fun t => t.offlineId == offlineId)

/-- The query `User.findOne({ rfid })`. -/
def findOneByRfid (users : List User) (rfid : String) : Option User :=
  users.find? (fun u => u.rfid == rfid)

/-- The query `Transaction.find({ userId })`. -/
def findByUserId (txs : List Transaction) (uid : ObjectId) : List Transaction :=
  txs.filter (fun t => t.userId == uid)

/-- The effect of `user.credit = newBalance; user.lastActivity = new Date(); user.save()`
on the users collection: the document with the id of `user` gets the two fields. -/
def saveCredit (users : List User) (uid : ObjectId) (newBalance : Int) (now : Nat) :
    List User :=
  users.map (fun u =>
    if u.id == uid then { u with credit := newBalance, lastActivity := some now } else u)

/-- The `enum` of the `type` path of `transactionSchema`. -/
def transactionTypes : List String := ["recharge", "purchase"]

/-- Builds `new Transaction({...})` and runs the schema validation of `save`:
`userId`, `type`, `amount` and `terminalId` are required, `type` is in the enum
and `terminalId` is not the empty string. `none` is the `ValidationError` thrown by `save`. -/
def newTransaction (userId : Option ObjectId) (type : Option String) (amount : Option Int)
    (item : Option String) (balance : Int) (terminalId : Option String)
    (offlineId : Option String) (timestamp : Nat) : Option Transaction :=
  match userId, type, amount, terminalId with
  | some uid, some ty, some a, some tid =>
    if transactionTypes.contains ty && tid != "" then
      some { userId := uid, type := ty, amount := a, item := item, balance := balance,
             terminalId := tid, offlineId := offlineId, timestamp := timestamp, synced := true }
    else none
  | _, _, _, _ => none

/-- The upsert `Terminal.findOneAndUpdate({ terminalId }, { lastSeen: new Date() }, { upsert: true })`:
the first terminal with that id gets the new `lastSeen`; when there is none a
terminal with the schema defaults is inserted. -/
def touchTerminal : List Terminal → String → Nat → List Terminal
  | [], tid, now =>
    [{ terminalId := tid, description := none, lastSeen := now, status := "active" }]
  | t :: ts, tid, now =>
    if t.terminalId == tid then { t with lastSeen := now } :: ts
    else t :: touchTerminal ts tid now

/-! ## POST /api/v1/transactions -/

/-- The body of `POST /api/v1/transactions`. -/
structure TransactionRequest where
  userId : Option ObjectId
  type : Option String
  amount : Option Int
  item : Option String
  terminalId : Option String
  offlineId : Option String
deriving DecidableEq, Repr

/-- The responses of `POST /api/v1/transactions`. -/
inductive TransactionResponse where
  /-- Status 400, `Missing required fields`. -/
  | missingFields
  /-- Status 404, `User not found`. -/
  | userNotFound
  /-- Status 201 with the saved transaction. -/
  | created (t : Transaction)
  /-- Status 500, `Failed to create transaction`. -/
  | failed
deriving DecidableEq, Repr

/-- The handler of `POST /api/v1/transactions`. -/
def postTransactions (s : Store) (now : Nat) (req : TransactionRequest) :
    Store × TransactionResponse :=
  if req.userId.isNone || !truthy req.type || req.amount.isNone then
    (s, .missingFields)
  else
    match findById s.users req.userId with
    | none => (s, .userNotFound)
    | some user =>
      let newBalance := user.credit + req.amount.getD 0
      match newTransaction req.userId req.type req.amount req.item newBalance
          req.terminalId req.offlineId now with
      | none => (s, .failed)
      | some transaction =>
        ({ s with
            users := saveCredit s.users user.id newBalance now
            transactions := s.transactions ++ [transaction] },
         .created transaction)

/-! ## POST /api/v1/sync-transactions -/

/-- One element of the `transactions` array of `POST /api/v1/sync-transactions`. -/
structure SyncItem where
  userId : Option ObjectId
  type : Option String
  amount : Option Int
  item : Option String
  offlineId : Option String
  date : Nat
deriving DecidableEq, Repr

/-- The body of `POST /api/v1/sync-transactions`; `transactions` is `none`
when the field is missing or is not an array. -/
structure SyncRequest where
  terminalId : Option String
  transactions : Option (List SyncItem)
deriving DecidableEq, Repr

/-- One element of `results`. -/
structure SyncResult where
  status : String
  offlineId : Option String
  message : Option String
  transaction : Option Transaction
deriving DecidableEq, Repr

/-- The responses of `POST /api/v1/sync-transactions`. -/
inductive SyncResponse where
  /-- Status 400, `Invalid transactions data`. -/
  | invalidData
  /-- Status 200 with the per-item results. -/
  | synchronized (results : List SyncResult)
  /-- Status 500, `Failed to sync transactions`. -/
  | failed
deriving DecidableEq, Repr

/-- The collections as seen inside the open session. -/
structure Session where
  users : List User
  transactions : List Transaction
deriving DecidableEq, Repr

/-- The body of the `for` loop of the sync handler for one item. `committed` is
the transactions collection outside the session, which is what the duplicate
lookup reads; the user lookup and both writes go through the session. `none`
is an exception, which leaves the loop. -/
def syncItem (committed : List Transaction) (terminalId : Option String) (now : Nat)
    (ses : Session) (x : SyncItem) : Option (Session × SyncResult) :=
  match findOneByOfflineId committed x.offlineId with
  | some _ =>
    some (ses, { status := "skipped", offlineId := x.offlineId,
                 message := some "Transaction already processed", transaction := none })
  | none =>
    match findById ses.users x.userId with
    | none =>
      some (ses, { status := "error", offlineId := x.offlineId,
                   message := some "User not found", transaction := none })
    | some user =>
      let newBalance := user.credit + x.amount.getD 0
      match newTransaction x.userId x.type x.amount x.item newBalance terminalId
          x.offlineId x.date with
      | none => none
      | some t =>
        some ({ users := saveCredit ses.users user.id newBalance now
                transactions := ses.transactions ++ [t] },
              { status := "success", offlineId := x.offlineId,
                message := none, transaction := some t })

/-- The `for (const transaction of transactions)` loop: items in order, one
result pushed per item. -/
def syncLoop (committed : List Transaction) (terminalId : Option String) (now : Nat) :
    Session → List SyncItem → Option (Session × List SyncResult)
  | ses, [] => some (ses, [])
  | ses, x :: rest =>
    match syncItem committed terminalId now ses x with
    | none => none
    | some (ses1, r) =>
      match syncLoop committed terminalId now ses1 rest with
      | none => none
      | some (ses2, rs) => some (ses2, r :: rs)

/-- The handler of `POST /api/v1/sync-transactions`. The terminal is touched
before the session starts, so it stays touched when the batch is aborted. -/
def postSyncTransactions (s : Store) (now : Nat) (req : SyncRequest) :
    Store × SyncResponse :=
  match req.transactions with
  | none => (s, .invalidData)
  | some transactions =>
    let terminals :=
      match req.terminalId with
      | some tid => if tid != "" then touchTerminal s.terminals tid now else s.terminals
      | none => s.terminals
    match syncLoop s.transactions req.terminalId now
        { users := s.users, transactions := s.transactions } transactions with
    | none => ({ s with terminals := terminals }, .failed)
    | some (ses, results) =>
      ({ users := ses.users, transactions := ses.transactions, terminals := terminals,
         coffeeOptions := s.coffeeOptions },
       .synchronized results)

/-! ## POST /api/v1/users -/

/-- The body of `POST /api/v1/users`. -/
structure UserRequest where
  name : Option String
  rfid : Option String
  credit : Option Int
deriving DecidableEq, Repr

/-- The responses of `POST /api/v1/users`, the two of the `isAdmin` middleware included. -/
inductive UserResponse where
  /-- Status 401, `Unauthorized - User ID missing`. -/
  | unauthorized
  /-- Status 403, `Forbidden - Admin access required`. -/
  | forbidden
  /-- Status 400, `Name and RFID are required`. -/
  | missingFields
  /-- Status 409, `RFID already exists`. -/
  | rfidExists
  /-- Status 201 with the saved user. -/
  | created (u : User)
deriving DecidableEq, Repr

/-- The middleware `isAdmin`: `none` lets the request through (`next()`),
`some r` answers it. -/
def isAdmin (users : List User) (xUserId : Option ObjectId) : Option UserResponse :=
  match xUserId with
  | none => some .unauthorized
  | some uid =>
    match findById users (some uid) with
    | none => some .forbidden
    | some user => if user.isAdmin then none else some .forbidden

/-- The handler of `POST /api/v1/users` behind `isAdmin`. `newId` is the
`_id` the driver generates for the new document. `credit || 500` takes 500 for
a missing and for a zero credit. -/
def postUsers (s : Store) (now : Nat) (newId : ObjectId) (xUserId : Option ObjectId)
    (req : UserRequest) : Store × UserResponse :=
  match isAdmin s.users xUserId with
  | some r => (s, r)
  | none =>
    match req.name, req.rfid with
    | some name, some rfid =>
      if name == "" || rfid == "" then (s, .missingFields)
      else
        match findOneByRfid s.users rfid with
        | some _ => (s, .rfidExists)
        | none =>
          let user : User :=
            { id := newId, name := name, rfid := rfid,
              credit := if req.credit.getD 0 == 0 then 500 else req.credit.getD 0,
              isAdmin := false, createdAt := now, updatedAt := now,
              lastActivity := some now, active := true }
          ({ s with users := s.users ++ [user] }, .created user)
    | _, _ => (s, .missingFields)

/-! ## The nightly consistency check -/

/-- The value `transactions.reduce((sum, t) => sum + t.amount, 0)` over
`Transaction.find({ userId })`. -/
def expectedCredit (txs : List Transaction) (uid : ObjectId) : Int :=
  (findByUserId txs uid).foldl (fun sum t => sum + t.amount) 0

/-- The test `Math.abs(user.credit - expectedCredit) > 0.01` on two JavaScript
`Number`s, taken as exact rationals: a difference of up to 0.01 passes as
consistent. -/
def inconsistent (credit expected : ℚ) : Bool :=
  decide (|credit - expected| > 1 / 100)

/-- The cron job `0 3 * * *` on a store whose credits and amounts are whole
numbers: every active user whose credit is more than 0.01 off the sum of the
amounts of the user's transactions gets that sum as credit. -/
def consistencyCheck (s : Store) : Store :=
  { s with
      users := s.users.map (fun user =>
        if user.active then
          if inconsistent user.credit (expectedCredit s.transactions user.id) then
            { user with credit := expectedCredit s.transactions user.id }
          else user
        else user) }

/-- The fields of a user document that the consistency check reads and writes,
with `credit` as any JavaScript `Number` (`userSchema` puts no restriction on
it). -/
structure AuditUser where
  id : ObjectId
  credit : ℚ
  active : Bool
deriving DecidableEq

/-- The fields of a transaction document that the consistency check reads, with
`amount` as any JavaScript `Number`. -/
structure AuditEntry where
  userId : ObjectId
  amount : ℚ
deriving DecidableEq

/-- The value `transactions.reduce((sum, t) => sum + t.amount, 0)` over
`Transaction.find({ userId })`, on `Number`s. -/
def expectedCreditOf (txs : List AuditEntry) (uid : ObjectId) : ℚ :=
  (txs.filter (fun t => t.userId == uid)).foldl (fun sum t => sum + t.amount) 0

/-- The cron job `0 3 * * *` on `Number`-valued documents: the users found by
`User.find({ active: true })` are visited one by one, and a user is written
only when the test on line 232 is true. -/
def consistencyCheckOn (users : List AuditUser) (txs : List AuditEntry) : List AuditUser :=
  users.map (fun user =>
    if user.active then
      if inconsistent user.credit (expectedCreditOf txs user.id) then
        { user with credit := expectedCreditOf txs user.id }
      else user
    else user)

/-- What the consistency check sees of a user document of the store. -/
def User.toAudit (u : User) : AuditUser :=
  { id := u.id, credit := u.credit, active := u.active }

/-- What the consistency check sees of a ledger entry of the store. -/
def Transaction.toAudit (t : Transaction) : AuditEntry :=
  { userId := t.userId, amount := t.amount }

/-! ## GET /api/v1/terminal/sync -/

/-- The query string of `GET /api/v1/terminal/sync`; `lastSync` is `none` when
the parameter is missing or empty. -/
structure TerminalSyncQuery where
  terminalId : Option String
  lastSync : Option Nat
deriving DecidableEq, Repr

/-- The responses of `GET /api/v1/terminal/sync`. -/
inductive TerminalSyncResponse where
  /-- Status 400, `Terminal ID is required`. -/
  | terminalIdRequired
  /-- Status 200 with `timestamp` and the three lists of `data`. -/
  | ok (timestamp : Nat) (users : List User) (coffeeOptions : List CoffeeOption)
      (transactions : List Transaction)
deriving DecidableEq, Repr

/-- The filter `{ ...query, active: true }` on a document with the given
`updatedAt` and `active`, where `query` is `{ updatedAt: { $gt: lastSync } }`
with a cursor and `{}` without one. -/
def changedAndActive (lastSync : Option Nat) (updatedAt : Nat) (active : Bool) : Bool :=
  (match lastSync with
   | some since => decide (updatedAt > since)
   | none => true) && active

/-- The handler of `GET /api/v1/terminal/sync`. -/
def getTerminalSync (s : Store) (now : Nat) (q : TerminalSyncQuery) :
    Store × TerminalSyncResponse :=
  match q.terminalId with
  | none => (s, .terminalIdRequired)
  | some terminalId =>
    if terminalId == "" then (s, .terminalIdRequired)
    else
      let users := s.users.filter (fun u => changedAndActive q.lastSync u.updatedAt u.active)
      let coffeeOptions :=
        s.coffeeOptions.filter (fun o => changedAndActive q.lastSync o.updatedAt o.active)
      let transactions :=
        match q.lastSync with
        | some since => s.transactions.filter (fun t => decide (t.timestamp > since))
        | none => []
      ({ s with terminals := touchTerminal s.terminals terminalId now },
       .ok now users coffeeOptions transactions)

/-! ## POST /api/v1/verify-rfid -/

/-- The body of `POST /api/v1/verify-rfid`. -/
structure VerifyRequest where
  rfid : Option String
  terminalId : Option String
deriving DecidableEq, Repr

/-- The responses of `POST /api/v1/verify-rfid`. -/
inductive VerifyResponse where
  /-- Status 400, `RFID is required`. -/
  | rfidRequired
  /-- Status 404, `User not found`. -/
  | userNotFound
  /-- Status 200 with the user. -/
  | ok (user : User)
deriving DecidableEq, Repr

/-- The handler of `POST /api/v1/verify-rfid`: the terminal is touched when an
id is given, the active user with the card is looked up and gets a new
`lastActivity`. -/
def postVerifyRfid (s : Store) (now : Nat) (req : VerifyRequest) : Store × VerifyResponse :=
  match req.rfid with
  | none => (s, .rfidRequired)
  | some rfid =>
    if rfid == "" then (s, .rfidRequired)
    else
      let terminals :=
        match req.terminalId with
        | some tid => if tid != "" then touchTerminal s.terminals tid now else s.terminals
        | none => s.terminals
      match s.users.find? (fun u => u.rfid == rfid && u.active) with
      | none => ({ s with terminals := terminals }, .userNotFound)
      | some user =>
        ({ s with
            terminals := terminals
            users := s.users.map (fun u =>
              if u.id == user.id then { u with lastActivity := some now } else u) },
         .ok { user with lastActivity := some now })

/-! ## GET /api/v1/users/:userId/transactions -/

/-- The body of the answer of `GET /api/v1/users/:userId/transactions`. -/
structure HistoryResponse where
  transactions : List Transaction
  total : Nat
  hasMore : Bool
deriving DecidableEq, Repr

/-- The cursor `.sort({ timestamp: -1 })`: newest first; entries with the same
timestamp keep their insertion order. -/
def sortByTimestampDesc (txs : List Transaction) : List Transaction :=
  txs.insertionSort (fun a b => b.timestamp ≤ a.timestamp)

/-- The cursor `.limit(n)`; a limit of 0 is no limit. -/
def limitTo (n : Nat) (txs : List Transaction) : List Transaction :=
  if n = 0 then txs else txs.take n

/-- The handler of `GET /api/v1/users/:userId/transactions`; `limit` and
`offset` default to 20 and 0. The handler writes nothing. -/
def getUserTransactions (s : Store) (userId : ObjectId) (limit offset : Option Nat) :
    Store × HistoryResponse :=
  let transactions :=
    limitTo (limit.getD 20) ((sortByTimestampDesc (findByUserId s.transactions userId)).drop
      (offset.getD 0))
  let total := (findByUserId s.transactions userId).length
  (s, { transactions := transactions, total := total,
        hasMore := decide (total > offset.getD 0 + transactions.length) })

/-! ## POST /api/v1/transactions with failing store calls -/

/-- The calls of the `try` block of `POST /api/v1/transactions` that can throw
for a reason of the storage engine or of the cache client. -/
inductive Fault where
  /-- The call `transaction.save({ session })` throws. -/
  | transactionSave
  /-- The call `user.save({ session })` throws. -/
  | userSave
  /-- The call `redisClient.del` throws. -/
  | cacheDel
  /-- The call `session.commitTransaction()` throws. -/
  | commitTransaction
deriving DecidableEq, Repr

/-- The handler of `POST /api/v1/transactions` when the call `fault` throws
(`none`: no call throws). The two writes are staged in the session and reach
the store at `commitTransaction`. When `transaction.save`, `user.save` or
`redisClient.del` throws, the `catch` block aborts the session, which drops
whatever was staged, and answers 500. When `commitTransaction` throws, the
session is past the state in which it can be aborted: the call
`session.abortTransaction()` of the `catch` block throws in its turn,
`res.status(500)` is not reached and the request gets no response, which is the
`none` of the second component. The commit that threw is taken as not
applied. -/
def postTransactionsUnder (fault : Option Fault) (s : Store) (now : Nat)
    (req : TransactionRequest) : Store × Option TransactionResponse :=
  if req.userId.isNone || !truthy req.type || req.amount.isNone then
    (s, some .missingFields)
  else
    match findById s.users req.userId with
    | none => (s, some .userNotFound)
    | some user =>
      let newBalance := user.credit + req.amount.getD 0
      match newTransaction req.userId req.type req.amount req.item newBalance
          req.terminalId req.offlineId now with
      | none => (s, some .failed)
      | some transaction =>
        let staged : Session :=
          { users := saveCredit s.users user.id newBalance now
            transactions := s.transactions ++ [transaction] }
        match fault with
        | some .commitTransaction => (s, none)
        | some _ => (s, some .failed)
        | none =>
          ({ s with users := staged.users, transactions := staged.transactions },
           some (.created transaction))

/-! ## Derived observations used in the statements -/

/-- The credit of the account `uid`, when there is one. -/
def creditOf (s : Store) (uid : ObjectId) : Option Int :=
  (findById s.users (some uid)).map (fun u => u.credit)

/-- The ledger entries that carry the idempotency key `k`. -/
def entriesWithKey (s : Store) (k : String) : List Transaction :=
  s.transactions.filter (fun t => t.offlineId == some k)

/-- The sum of `amount` over the ledger entries of the account `uid`. -/
def ledgerSum (s : Store) (uid : ObjectId) : Int :=
  ((s.transactions.filter (fun t => t.userId == uid)).map (fun t => t.amount)).sum

/-- A sequence of `POST /api/v1/transactions` calls, each with its own clock
reading, run one after the other. -/
def runTransactions (s : Store) (calls : List (Nat × TransactionRequest)) : Store :=
  calls.foldl (fun st c => (postTransactions st c.1 c.2).1) s

/-! ## Sample data -/

/-- An administrator. -/
def root : User :=
  { id := 0, name := "Root", rfid := "rfid-0", credit := 0, isAdmin := true,
    createdAt := 0, updatedAt := 0, lastActivity := none, active := true }

/-- Account A of the scenarios, with credit 500. -/
def alice : User :=
  { id := 1, name := "Alice", rfid := "rfid-1", credit := 500, isAdmin := false,
    createdAt := 0, updatedAt := 0, lastActivity := none, active := true }

/-- Account B of the scenarios, with credit 30. -/
def bob : User :=
  { id := 2, name := "Bob", rfid := "rfid-2", credit := 30, isAdmin := false,
    createdAt := 0, updatedAt := 0, lastActivity := none, active := true }

/-- The two catalogue options of the samples; the second one is switched off. -/
def sampleOptions : List CoffeeOption :=
  [{ id := 11, name := "espresso", price := 45, active := true, createdAt := 0, updatedAt := 0 },
   { id := 12, name := "latte", price := 40, active := false, createdAt := 0, updatedAt := 20 }]

/-- Three accounts, an empty ledger, no terminal seen yet. -/
def sampleStore : Store :=
  { users := [root, alice, bob], transactions := [], terminals := [],
    coffeeOptions := sampleOptions }

/-- A purchase of 45 by account A, recorded offline under the key `t1-100-abc`. -/
def purchase45 : SyncItem :=
  { userId := some 1, type := some "purchase", amount := some (-45), item := some "espresso",
    offlineId := some "t1-100-abc", date := 100 }

/-- A recharge of 100 by account A, recorded offline under the key `t1-200-def`. -/
def recharge100 : SyncItem :=
  { userId := some 1, type := some "recharge", amount := some 100, item := none,
    offlineId := some "t1-200-def", date := 200 }

/-- The batch of terminal `t1` with the two offline items, in that order. -/
def offlineBatch : SyncRequest :=
  { terminalId := some "t1", transactions := some [purchase45, recharge100] }

/-- The purchase of 45 sent to `POST /api/v1/transactions`. -/
def purchaseRequest : TransactionRequest :=
  { userId := some 1, type := some "purchase", amount := some (-45), item := some "espresso",
    terminalId := some "t1", offlineId := some "t1-100-abc" }

/-- The recharge of 100 sent to `POST /api/v1/transactions`. -/
def rechargeRequest : TransactionRequest :=
  { userId := some 1, type := some "recharge", amount := some 100, item := none,
    terminalId := some "t1", offlineId := some "t1-200-def" }

/-- A purchase of 40 by account B, whose credit is 30. -/
def purchase40 : TransactionRequest :=
  { userId := some 2, type := some "purchase", amount := some (-40), item := some "latte",
    terminalId := some "t1", offlineId := some "t1-300-ghi" }

/-- An offline item of an account that does not exist. -/
def strangerItem : SyncItem :=
  { userId := some 99, type := some "purchase", amount := some (-45), item := some "espresso",
    offlineId := some "t1-400-jkl", date := 400 }

/-- An offline item whose `type` is not in the enum of the schema. -/
def refundItem : SyncItem :=
  { userId := some 1, type := some "refund", amount := some 45, item := none,
    offlineId := some "t1-500-mno", date := 500 }

/-- The body that creates a user without giving a credit. -/
def carolRequest : UserRequest :=
  { name := some "Carol", rfid := some "rfid-7", credit := none }

/-- A store whose account A carries a corrupted credit next to two ledger entries. -/
def driftedStore : Store :=
  { users := [{ alice with credit := 999 }, { bob with active := false }],
    transactions :=
      [{ userId := 1, type := "purchase", amount := -45, item := some "espresso", balance := 455,
         terminalId := "t1", offlineId := some "t1-100-abc", timestamp := 100, synced := true },
       { userId := 1, type := "recharge", amount := 100, item := none, balance := 555,
         terminalId := "t1", offlineId := some "t1-200-def", timestamp := 200, synced := true }],
    terminals := [], coffeeOptions := sampleOptions }

/-- A recharge of 100 for the account with id 7. -/
def carolRecharge : TransactionRequest :=
  { userId := some 7, type := some "recharge", amount := some 100, item := none,
    terminalId := some "t1", offlineId := some "t1-600-pqr" }

/-- The store after the purchase of 45 was posted once. -/
def firstApply : Store × TransactionResponse :=
  postTransactions sampleStore 1 purchaseRequest

/-- The store after the same purchase was posted a second time. -/
def secondApply : Store × TransactionResponse :=
  postTransactions firstApply.1 2 purchaseRequest

/-- The store after an administrator created the account with id 7 without a credit. -/
def carolCreated : Store × UserResponse :=
  postUsers sampleStore 5 7 (some 0) carolRequest

/-- The results the first submission of `offlineBatch` reports. -/
def offlineBatchResults : List SyncResult :=
  [{ status := "success", offlineId := some "t1-100-abc", message := none,
     transaction := some { userId := 1, type := "purchase", amount := -45,
                           item := some "espresso", balance := 455, terminalId := "t1",
                           offlineId := some "t1-100-abc", timestamp := 100, synced := true } },
   { status := "success", offlineId := some "t1-200-def", message := none,
     transaction := some { userId := 1, type := "recharge", amount := 100, item := none,
                           balance := 555, terminalId := "t1",
                           offlineId := some "t1-200-def", timestamp := 200, synced := true } }]

/-- A batch sent after `firstApply`: a new item, an item of an unknown account
and an item whose key is already in the ledger. -/
def mixedBatch : SyncRequest :=
  { terminalId := some "t1", transactions := some [recharge100, strangerItem, purchase45] }

/-- The results `mixedBatch` gets. -/
def mixedResults : List SyncResult :=
  [{ status := "success", offlineId := some "t1-200-def", message := none,
     transaction := some { userId := 1, type := "recharge", amount := 100, item := none,
                           balance := 555, terminalId := "t1",
                           offlineId := some "t1-200-def", timestamp := 200, synced := true } },
   { status := "error", offlineId := some "t1-400-jkl", message := some "User not found",
     transaction := none },
   { status := "skipped", offlineId := some "t1-100-abc",
     message := some "Transaction already processed", transaction := none }]

/-- The one-item batch with the purchase of 40 by account B. -/
def purchase40Batch : SyncRequest :=
  { terminalId := some "t1",
    transactions := some [{ userId := some 2, type := some "purchase", amount := some (-40),
                            item := some "latte", offlineId := some "t1-300-ghi",
                            date := 300 }] }

/-- An account that was switched off at time 10. -/
def dave : User :=
  { id := 3, name := "Dave", rfid := "rfid-3", credit := 80, isAdmin := false,
    createdAt := 0, updatedAt := 10, lastActivity := none, active := false }

/-- A store with a switched-off account, a switched-off option, two ledger
entries and two known terminals, one of them marked for maintenance. -/
def pullStore : Store :=
  { users := [alice, dave], transactions := driftedStore.transactions,
    terminals :=
      [{ terminalId := "t1", description := some "hall", lastSeen := 1,
         status := "maintenance" },
       { terminalId := "t2", description := none, lastSeen := 2, status := "active" }],
    coffeeOptions := sampleOptions }

/-- An offline purchase whose terminal clock reads 1000. -/
def aheadItem : SyncItem :=
  { userId := some 1, type := some "purchase", amount := some (-45), item := some "espresso",
    offlineId := some "t1-1000-xyz", date := 1000 }

/-- The store after `aheadItem` was pushed at server time 400. -/
def aheadStore : Store :=
  (postSyncTransactions sampleStore 400
    { terminalId := some "t1", transactions := some [aheadItem] }).1

/-- An offline purchase recorded at terminal time 40. -/
def staleItem : SyncItem :=
  { userId := some 1, type := some "purchase", amount := some (-45), item := some "espresso",
    offlineId := some "t1-40-stu", date := 40 }

/-- The store after `staleItem` was pushed at server time 120. -/
def staleStore : Store :=
  (postSyncTransactions sampleStore 120
    { terminalId := some "t1", transactions := some [staleItem] }).1

/-- A recharge of 10 for account B. -/
def bobRecharge : TransactionRequest :=
  { userId := some 2, type := some "recharge", amount := some 10, item := none,
    terminalId := some "t1", offlineId := some "t1-700-vwx" }

/-- A request of type `recharge` with a negative amount. -/
def negativeRecharge : TransactionRequest :=
  { userId := some 1, type := some "recharge", amount := some (-100), item := none,
    terminalId := some "t1", offlineId := some "t1-800-yza" }

/-- A request for an account that does not exist. -/
def strangerRequest : TransactionRequest :=
  { userId := some 99, type := some "purchase", amount := some (-45), item := some "espresso",
    terminalId := some "t1", offlineId := some "t1-400-jkl" }

/-- The ledger entry `aheadItem` leaves behind. -/
def aheadEntry : Transaction :=
  { userId := 1, type := "purchase", amount := -45, item := some "espresso", balance := 455,
    terminalId := "t1", offlineId := some "t1-1000-xyz", timestamp := 1000, synced := true }

/-- The ledger entry `staleItem` leaves behind. -/
def staleEntry : Transaction :=
  { userId := 1, type := "purchase", amount := -45, item := some "espresso", balance := 455,
    terminalId := "t1", offlineId := some "t1-40-stu", timestamp := 40, synced := true }

/-- The ledger entry of `rechargeRequest` posted at time 350 for a credit of 500. -/
def rechargeEntry : Transaction :=
  { userId := 1, type := "recharge", amount := 100, item := none, balance := 600,
    terminalId := "t1", offlineId := some "t1-200-def", timestamp := 350, synced := true }

/-- The second ledger entry of `pullStore`. -/
def entry200 : Transaction :=
  { userId := 1, type := "recharge", amount := 100, item := none, balance := 555,
    terminalId := "t1", offlineId := some "t1-200-def", timestamp := 200, synced := true }

/-- An active account whose stored credit is 100.005. -/
def driftedAccount : AuditUser :=
  { id := 1, credit := 20001 / 200, active := true }

/-- The audit's view of a recharge of 100 for the account with id 1. -/
def recharge100Entry : AuditEntry :=
  { userId := 1, amount := 100 }

/-- An active account created with the credit 0.005. -/
def pennyAccount : AuditUser :=
  { id := 7, credit := 1 / 200, active := true }

/-! ## The terminal application -/

/-- The body with which the terminal application sends the queued item `x` to
`POST /api/v1/transactions` (`addTransaction` builds one object for both
routes). -/
def SyncItem.toRequest (x : SyncItem) (terminalId : Option String) : TransactionRequest :=
  { userId := x.userId, type := x.type, amount := x.amount, item := x.item,
    terminalId := terminalId, offlineId := x.offlineId }

/-- The update of the offline queue in `syncWithServer`: when the answer of the
pull carries transactions and at least one of them has a truthy `offlineId`,
the queued items whose `offlineId` is in that set are dropped. `transactions`
is `none` when the answer has no such field. -/
def pruneOfflineTransactions (prev : List SyncItem) (transactions : Option (List Transaction)) :
    List SyncItem :=
  match transactions with
  | none => prev
  | some ts =>
    if ts.length > 0 then
      let offlineIds := ((ts.map (fun t => t.offlineId)).filter truthy).dedup
      if offlineIds.length > 0 then
        prev.filter (fun t => !truthy t.offlineId || !offlineIds.contains t.offlineId)
      else prev
    else prev

/-- The call `userMap.set(key, user)` on a `Map` kept as the list of its
entries in insertion order: an existing key keeps its place and gets the new
value, a new key goes to the end. -/
def mapSet : List (ObjectId × User) → ObjectId → User → List (ObjectId × User)
  | [], key, user => [(key, user)]
  | (k, v) :: rest, key, user =>
    if k == key then (key, user) :: rest else (k, v) :: mapSet rest key user

/-- The merge of `syncWithServer`: every previous user and then every updated
user is put into a `Map` under its id, and the values of the map are the new
list. -/
def mergeUsers (prevUsers updatedUsers : List User) : List User :=
  let userMap := prevUsers.foldl (fun m user => mapSet m user.id user) []
  let userMap := updatedUsers.foldl (fun m user => mapSet m user.id user) userMap
  userMap.map (fun entry => entry.2)

/-- The update of the users in `syncWithServer`: the merge runs only when the
answer carries a non-empty `users` list. -/
def updateUsers (prevUsers : List User) (updatedUsers : Option (List User)) : List User :=
  match updatedUsers with
  | none => prevUsers
  | some updated => if updated.length > 0 then mergeUsers prevUsers updated else prevUsers

/-- The part of the state of the terminal application that
`syncOfflineTransactions` reads and writes. -/
structure ClientState where
  users : List User
  offlineTransactions : List SyncItem
  isOffline : Bool
deriving DecidableEq, Repr

/-- The function `syncOfflineTransactions` of the terminal application. `push`
is the answer of `POST /sync-transactions` and `reload` the answer of
`GET /users`; `none` is a request that throws (no answer or a status outside
2xx). The second request is only made when the first one did not throw. -/
def syncOfflineTransactions (c : ClientState) (push : Option (List SyncResult))
    (reload : Option (List User)) : ClientState :=
  if c.offlineTransactions.length == 0 || c.isOffline then c
  else
    match push with
    | none => c
    | some _ =>
      match reload with
      | none => c
      | some users => { c with users := users, offlineTransactions := [] }

/-- A terminal that is online with the two offline items in its queue. -/
def sampleClient : ClientState :=
  { users := [alice, bob], offlineTransactions := [purchase45, recharge100], isOffline := false }

/-- A queued item without an `offlineId`. -/
def keylessItem : SyncItem :=
  { userId := some 2, type := some "purchase", amount := some (-40), item := some "latte",
    offlineId := none, date := 900 }

/-! ## Lemmas on the collection queries -/

theorem saveCredit_id (uid : ObjectId) (nb : Int) (now : Nat) (u : User) :
    (if u.id == uid then { u with credit := nb, lastActivity := some now } else u).id = u.id := by
  split <;> rfl

theorem findById_saveCredit (users : List User) (uid v : ObjectId) (nb : Int) (now : Nat) :
    findById (saveCredit users uid nb now) (some v) =
      (findById users (some v)).map (fun u =>
        if u.id == uid then { u with credit := nb, lastActivity := some now } else u) := by
  induction users with
  | nil => rfl
  | cons u us ih =>
    simp only [findById, saveCredit, List.map_cons, List.find?_cons] at ih ⊢
    rw [saveCredit_id]
    cases h : (u.id == v)
    · simpa using ih
    · simp

theorem findById_id {users : List User} {v : ObjectId} {u : User}
    (h : findById users (some v) = some u) : u.id = v := by
  have := List.find?_some h
  simpa using this

theorem saveCredit_map_id (users : List User) (uid : ObjectId) (nb : Int) (now : Nat) :
    (saveCredit users uid nb now).map (fun u => u.id) = users.map (fun u => u.id) := by
  induction users with
  | nil => rfl
  | cons u us ih =>
    simp only [saveCredit, List.map_cons] at ih ⊢
    rw [saveCredit_id, ih]

theorem expectedCredit_eq_sum (txs : List Transaction) (uid : ObjectId) :
    expectedCredit txs uid = ((txs.filter (fun t => t.userId == uid)).map (fun t => t.amount)).sum := by
  unfold expectedCredit findByUserId
  generalize txs.filter (fun t => t.userId == uid) = l
  have key : ∀ (l : List Transaction) (z : Int),
      l.foldl (fun sum t => sum + t.amount) z = z + (l.map (fun t => t.amount)).sum := by
    intro l
    induction l with
    | nil => intro z; simp
    | cons t ts ih => intro z; simp [ih, add_assoc]
  simpa using key l 0

/-! ## Lemmas on `POST /api/v1/transactions` -/

theorem newTransaction_valid (uid : ObjectId) (ty : String) (a : Int) (item : Option String)
    (balance : Int) (tid : String) (offlineId : Option String) (ts : Nat)
    (hty : ty = "recharge" ∨ ty = "purchase") (htid : tid ≠ "") :
    newTransaction (some uid) (some ty) (some a) item balance (some tid) offlineId ts =
      some { userId := uid, type := ty, amount := a, item := item, balance := balance,
             terminalId := tid, offlineId := offlineId, timestamp := ts, synced := true } := by
  have h1 : transactionTypes.contains ty = true := by
    rcases hty with h | h <;> subst h <;> decide
  have h2 : (tid != "") = true := by simpa using htid
  simp only [newTransaction, h1, h2, Bool.and_self, if_true]

theorem newTransaction_fields {userId : Option ObjectId} {type : Option String}
    {amount : Option Int} {item : Option String} {balance : Int} {terminalId : Option String}
    {offlineId : Option String} {ts : Nat} {t : Transaction}
    (h : newTransaction userId type amount item balance terminalId offlineId ts = some t) :
    userId = some t.userId ∧ type = some t.type ∧ amount = some t.amount ∧ t.item = item ∧
      t.balance = balance ∧ terminalId = some t.terminalId ∧ t.offlineId = offlineId ∧
      t.timestamp = ts ∧ (t.type = "recharge" ∨ t.type = "purchase") ∧ t.terminalId ≠ "" := by
  unfold newTransaction at h
  split at h
  · rename_i uid ty a tid
    split at h
    · rename_i hc
      simp only [Option.some.injEq] at h
      subst h
      simp only [Bool.and_eq_true, bne_iff_ne, ne_eq] at hc
      refine ⟨rfl, rfl, rfl, rfl, rfl, rfl, rfl, rfl, ?_, hc.2⟩
      have := hc.1
      simp [transactionTypes] at this
      exact this
    · exact absurd h (by simp)
  · exact absurd h (by simp)

theorem postTransactions_accepts (s : Store) (now : Nat) (req : TransactionRequest)
    (user : User) (uid : ObjectId) (ty : String) (a : Int) (tid : String)
    (hu : findById s.users (some uid) = some user) (hid : req.userId = some uid)
    (hty : req.type = some ty) (hty' : ty = "recharge" ∨ ty = "purchase")
    (ha : req.amount = some a) (htid : req.terminalId = some tid) (htid' : tid ≠ "") :
    postTransactions s now req =
      ({ s with
          users := saveCredit s.users uid (user.credit + a) now
          transactions := s.transactions ++
            [{ userId := uid, type := ty, amount := a, item := req.item,
               balance := user.credit + a, terminalId := tid, offlineId := req.offlineId,
               timestamp := now, synced := true }] },
       .created { userId := uid, type := ty, amount := a, item := req.item,
                  balance := user.credit + a, terminalId := tid, offlineId := req.offlineId,
                  timestamp := now, synced := true }) := by
  have hne : ty ≠ "" := by rcases hty' with h | h <;> subst h <;> decide
  have hid' := findById_id hu
  unfold postTransactions
  simp only [hid, hty, ha, htid, truthy, hu, Option.getD_some,
    newTransaction_valid uid ty a req.item (user.credit + a) tid req.offlineId now hty' htid', hid']
  simp [hne]

theorem creditOf_saveCredit (s : Store) (uid : ObjectId) (user : User) (nb : Int) (now : Nat)
    (txs : List Transaction)
    (hu : findById s.users (some uid) = some user) :
    creditOf { s with users := saveCredit s.users uid nb now, transactions := txs } uid = some nb := by
  have hid := findById_id hu
  simp [creditOf, findById_saveCredit, hu, hid]

/-! ## The credit follows the ledger at a constant offset -/

theorem ledgerSum_append (s : Store) (users : List User) (t : Transaction) (uid : ObjectId) :
    ledgerSum { s with users := users, transactions := s.transactions ++ [t] } uid =
      ledgerSum s uid + (if t.userId == uid then t.amount else 0) := by
  simp only [ledgerSum, List.filter_append, List.map_append, List.sum_append]
  cases h : (t.userId == uid) <;> simp [List.filter_cons, h]

theorem postTransactions_cases (s : Store) (now : Nat) (req : TransactionRequest) :
    ((postTransactions s now req).1 = s ∧ ∀ t, (postTransactions s now req).2 ≠ .created t) ∨
    ∃ user t, findById s.users req.userId = some user ∧
      newTransaction req.userId req.type req.amount req.item (user.credit + req.amount.getD 0)
        req.terminalId req.offlineId now = some t ∧
      postTransactions s now req =
        ({ s with
            users := saveCredit s.users user.id (user.credit + req.amount.getD 0) now
            transactions := s.transactions ++ [t] }, .created t) := by
  unfold postTransactions
  split
  · exact Or.inl ⟨rfl, fun t => by simp⟩
  · split
    · exact Or.inl ⟨rfl, fun t => by simp⟩
    · rename_i user hu
      dsimp only
      split
      · exact Or.inl ⟨rfl, fun t => by simp⟩
      · rename_i t ht
        exact Or.inr ⟨user, t, hu, ht, rfl⟩

theorem postTransactions_offset (s : Store) (now : Nat) (req : TransactionRequest)
    (uid : ObjectId) (c : Int) (h : creditOf s uid = some (c + ledgerSum s uid)) :
    creditOf (postTransactions s now req).1 uid =
      some (c + ledgerSum (postTransactions s now req).1 uid) := by
  rcases postTransactions_cases s now req with ⟨hs, -⟩ | ⟨user, t, hu, ht, hp⟩
  · rw [hs]; exact h
  · rw [hp]
    obtain ⟨h1, -, h3, -, -, -, -, -, -, -⟩ := newTransaction_fields ht
    rw [h1] at hu
    have hid := findById_id hu
    simp only [ledgerSum_append]
    simp only [creditOf, findById_saveCredit] at h ⊢
    by_cases hc : t.userId = uid
    · subst hc
      rw [hu] at h
      simp only [Option.map_some', Option.some.injEq] at h
      simp only [hu, Option.map_some', hid, beq_self_eq_true, if_true, h3, Option.getD_some,
        Option.some.injEq]
      rw [h]
      ring
    · have hb : (t.userId == uid) = false := by simpa using hc
      simp only [hb, Bool.false_eq_true, if_false, add_zero]
      rw [← h]
      cases hf : findById s.users (some uid) with
      | none => rfl
      | some u =>
        have hu' := findById_id hf
        have hb' : ¬ u.id = user.id := by
          rw [hu', hid]; exact fun e => hc e.symm
        simp [hb']

theorem runTransactions_offset (calls : List (Nat × TransactionRequest)) (s : Store)
    (uid : ObjectId) (c : Int) (h : creditOf s uid = some (c + ledgerSum s uid)) :
    creditOf (runTransactions s calls) uid = some (c + ledgerSum (runTransactions s calls) uid) := by
  induction calls generalizing s with
  | nil => exact h
  | cons call rest ih =>
    simp only [runTransactions, List.foldl_cons] at ih ⊢
    exact ih _ (postTransactions_offset s call.1 call.2 uid c h)

theorem postUsers_created {s s1 : Store} {now : Nat} {newId : ObjectId}
    {xUserId : Option ObjectId} {req : UserRequest} {u : User}
    (h : postUsers s now newId xUserId req = (s1, .created u)) :
    s1 = { s with users := s.users ++ [u] } ∧ u.id = newId ∧
      u.credit = (if req.credit.getD 0 == 0 then 500 else req.credit.getD 0) := by
  unfold postUsers at h
  split at h
  · simp only [Prod.mk.injEq] at h
    rename_i r hr
    obtain ⟨-, h2⟩ := h
    subst h2
    unfold isAdmin at hr
    split at hr
    · simp at hr
    · split at hr
      · simp at hr
      · split at hr <;> simp at hr
  · split at h
    · split at h
      · simp at h
      · split at h
        · simp at h
        · simp only [Prod.mk.injEq, UserResponse.created.injEq] at h
          obtain ⟨h1, h2⟩ := h
          subst h2
          exact ⟨h1.symm, rfl, rfl⟩
    · simp at h

theorem ledgerSum_fresh (s : Store) (uid : ObjectId)
    (h : ∀ t ∈ s.transactions, t.userId ≠ uid) : ledgerSum s uid = 0 := by
  have : s.transactions.filter (fun t => t.userId == uid) = [] := by
    rw [List.filter_eq_nil_iff]
    intro t ht
    simpa using h t ht
  simp [ledgerSum, this]

/-! ## Lemmas on the batch loop -/

theorem syncItem_cases {committed : List Transaction} {tid : Option String} {now : Nat}
    {ses ses1 : Session} {x : SyncItem} {r : SyncResult}
    (h : syncItem committed tid now ses x = some (ses1, r)) :
    ((∃ e, findOneByOfflineId committed x.offlineId = some e) ∧ ses1 = ses ∧
        r = { status := "skipped", offlineId := x.offlineId,
              message := some "Transaction already processed", transaction := none }) ∨
    (findOneByOfflineId committed x.offlineId = none ∧ findById ses.users x.userId = none ∧
        ses1 = ses ∧
        r = { status := "error", offlineId := x.offlineId,
              message := some "User not found", transaction := none }) ∨
    (∃ user t, findOneByOfflineId committed x.offlineId = none ∧
        findById ses.users x.userId = some user ∧
        newTransaction x.userId x.type x.amount x.item (user.credit + x.amount.getD 0) tid
          x.offlineId x.date = some t ∧
        ses1 = { users := saveCredit ses.users user.id (user.credit + x.amount.getD 0) now
                 transactions := ses.transactions ++ [t] } ∧
        r = { status := "success", offlineId := x.offlineId, message := none,
              transaction := some t }) := by
  unfold syncItem at h
  split at h
  · rename_i e he
    simp only [Option.some.injEq, Prod.mk.injEq] at h
    exact Or.inl ⟨⟨e, he⟩, h.1.symm, h.2.symm⟩
  · rename_i he
    split at h
    · rename_i hu
      simp only [Option.some.injEq, Prod.mk.injEq] at h
      exact Or.inr (Or.inl ⟨he, hu, h.1.symm, h.2.symm⟩)
    · rename_i user hu
      dsimp only at h
      split at h
      · simp at h
      · rename_i t ht
        simp only [Option.some.injEq, Prod.mk.injEq] at h
        exact Or.inr (Or.inr ⟨user, t, he, hu, ht, h.1.symm, h.2.symm⟩)

theorem syncLoop_cons {committed : List Transaction} {tid : Option String} {now : Nat}
    {ses ses2 : Session} {x : SyncItem} {rest : List SyncItem} {rs : List SyncResult}
    (h : syncLoop committed tid now ses (x :: rest) = some (ses2, rs)) :
    ∃ ses1 r rs1, syncItem committed tid now ses x = some (ses1, r) ∧
      syncLoop committed tid now ses1 rest = some (ses2, rs1) ∧ rs = r :: rs1 := by
  simp only [syncLoop] at h
  split at h
  · simp at h
  · rename_i ses1 r h1
    split at h
    · simp at h
    · rename_i ses3 rs1 h2
      simp only [Option.some.injEq, Prod.mk.injEq] at h
      exact ⟨ses1, r, rs1, h1, by rw [h2, h.1], h.2.symm⟩

theorem syncItem_result {committed : List Transaction} {tid : Option String} {now : Nat}
    {ses ses1 : Session} {x : SyncItem} {r : SyncResult}
    (h : syncItem committed tid now ses x = some (ses1, r)) :
    r.offlineId = x.offlineId ∧
      (r.status = "success" ∨ r.status = "skipped" ∨ r.status = "error") := by
  rcases syncItem_cases h with ⟨-, -, hr⟩ | ⟨-, -, -, hr⟩ | ⟨_, _, -, -, -, -, hr⟩ <;>
    subst hr <;> simp

theorem syncLoop_results {committed : List Transaction} {tid : Option String} {now : Nat}
    (items : List SyncItem) {ses ses2 : Session} {rs : List SyncResult}
    (h : syncLoop committed tid now ses items = some (ses2, rs)) :
    rs.map (fun r => r.offlineId) = items.map (fun x => x.offlineId) ∧
      ∀ r ∈ rs, r.status = "success" ∨ r.status = "skipped" ∨ r.status = "error" := by
  induction items generalizing ses rs with
  | nil =>
    simp only [syncLoop, Option.some.injEq, Prod.mk.injEq] at h
    rw [← h.2]; simp
  | cons x rest ih =>
    obtain ⟨ses1, r, rs1, h1, h2, hrs⟩ := syncLoop_cons h
    obtain ⟨hk, hst⟩ := syncItem_result h1
    obtain ⟨ihk, ihst⟩ := ih h2
    subst hrs
    refine ⟨by simp [hk, ihk], ?_⟩
    intro r' hr'
    rcases List.mem_cons.mp hr' with e | e
    · rw [e]; exact hst
    · exact ihst r' e

theorem postSyncTransactions_synchronized {s s1 : Store} {now : Nat} {req : SyncRequest}
    {results : List SyncResult}
    (h : postSyncTransactions s now req = (s1, .synchronized results)) :
    ∃ items ses, req.transactions = some items ∧
      syncLoop s.transactions req.terminalId now
        { users := s.users, transactions := s.transactions } items = some (ses, results) ∧
      s1.users = ses.users ∧ s1.transactions = ses.transactions := by
  unfold postSyncTransactions at h
  split at h
  · simp at h
  · rename_i items hitems
    dsimp only at h
    split at h
    · simp at h
    · rename_i ses rs hl
      simp only [Prod.mk.injEq, SyncResponse.synchronized.injEq] at h
      obtain ⟨h1, h2⟩ := h
      subst h2
      exact ⟨items, ses, hitems, hl, by rw [← h1], by rw [← h1]⟩

/-! ## A batch of valid items on one account -/

theorem syncItem_success (committed : List Transaction) (td : String) (now : Nat)
    (ses : Session) (x : SyncItem) (user : User) (uid : ObjectId) (ty : String) (a : Int)
    (hk : findOneByOfflineId committed x.offlineId = none)
    (hu : findById ses.users (some uid) = some user) (hid : x.userId = some uid)
    (hty : x.type = some ty) (hty' : ty = "recharge" ∨ ty = "purchase")
    (ha : x.amount = some a) (htd : td ≠ "") :
    syncItem committed (some td) now ses x =
      some ({ users := saveCredit ses.users uid (user.credit + a) now
              transactions := ses.transactions ++
                [{ userId := uid, type := ty, amount := a, item := x.item,
                   balance := user.credit + a, terminalId := td, offlineId := x.offlineId,
                   timestamp := x.date, synced := true }] },
            { status := "success", offlineId := x.offlineId, message := none,
              transaction := some { userId := uid, type := ty, amount := a, item := x.item,
                                    balance := user.credit + a, terminalId := td,
                                    offlineId := x.offlineId, timestamp := x.date,
                                    synced := true } }) := by
  have hid' := findById_id hu
  unfold syncItem
  simp only [hk, hid, hu, hty, ha, Option.getD_some, hid',
    newTransaction_valid uid ty a x.item (user.credit + a) td x.offlineId x.date hty' htd]

theorem syncItem_success_entry (committed : List Transaction) (td : String) (now : Nat)
    (ses : Session) (x : SyncItem) (user : User) (uid : ObjectId) (ty : String) (a : Int)
    (hk : findOneByOfflineId committed x.offlineId = none)
    (hu : findById ses.users (some uid) = some user) (hid : x.userId = some uid)
    (hty : x.type = some ty) (hty' : ty = "recharge" ∨ ty = "purchase")
    (ha : x.amount = some a) (htd : td ≠ "") :
    ∃ t, syncItem committed (some td) now ses x =
        some ({ users := saveCredit ses.users uid (user.credit + a) now
                transactions := ses.transactions ++ [t] },
              { status := "success", offlineId := x.offlineId, message := none,
                transaction := some t }) ∧
      t.userId = uid ∧ t.amount = a ∧ t.offlineId = x.offlineId ∧
      t.balance = user.credit + a :=
  ⟨_, syncItem_success committed td now ses x user uid ty a hk hu hid hty hty' ha htd,
    rfl, rfl, rfl, rfl⟩

theorem syncLoop_valid (committed : List Transaction) (td : String) (now : Nat)
    (uid : ObjectId) (htd : td ≠ "") (items : List SyncItem)
    (hitems : ∀ x ∈ items, x.userId = some uid ∧
      (x.type = some "recharge" ∨ x.type = some "purchase") ∧ x.amount ≠ none ∧
      findOneByOfflineId committed x.offlineId = none)
    (ses : Session) (user : User) (hu : findById ses.users (some uid) = some user) :
    ∃ ses2 rs entries, syncLoop committed (some td) now ses items = some (ses2, rs) ∧
      rs.length = items.length ∧ (∀ r ∈ rs, r.status = "success") ∧
      ses2.transactions = ses.transactions ++ entries ∧ entries.length = items.length ∧
      (∀ (i : Nat) (x : SyncItem) (e : Transaction), items[i]? = some x → entries[i]? = some e →
        e.userId = uid ∧ x.amount = some e.amount ∧ e.offlineId = x.offlineId ∧
        e.balance = user.credit + ((entries.take (i + 1)).map (fun t => t.amount)).sum) ∧
      (findById ses2.users (some uid)).map (fun u => u.credit) =
        some (user.credit + (entries.map (fun t => t.amount)).sum) := by
  induction items generalizing ses user with
  | nil =>
    exact ⟨ses, [], [], rfl, rfl, by simp, by simp, rfl, by simp, by simp [hu]⟩
  | cons x rest ih =>
    obtain ⟨hid, hty, ha, hk⟩ := hitems x (List.mem_cons_self _ _)
    obtain ⟨a, ha⟩ := Option.ne_none_iff_exists'.mp ha
    obtain ⟨ty, hty1, hty2⟩ : ∃ ty, x.type = some ty ∧ (ty = "recharge" ∨ ty = "purchase") := by
      rcases hty with h | h
      · exact ⟨_, h, Or.inl rfl⟩
      · exact ⟨_, h, Or.inr rfl⟩
    obtain ⟨t0, hstep, hf1, hf2, hf3, hf4⟩ :=
      syncItem_success_entry committed td now ses x user uid ty a hk hu hid hty1 hty2 ha htd
    have hu1 : findById (saveCredit ses.users uid (user.credit + a) now) (some uid) =
        some { user with credit := user.credit + a, lastActivity := some now } := by
      simp [findById_saveCredit, hu, findById_id hu]
    obtain ⟨ses2, rs, entries, hl, hlen, hst, htx, helen, hidx, hcr⟩ :=
      ih (fun y hy => hitems y (List.mem_cons_of_mem _ hy))
        { users := saveCredit ses.users uid (user.credit + a) now
          transactions := ses.transactions ++ [t0] }
        { user with credit := user.credit + a, lastActivity := some now } hu1
    refine ⟨ses2, ({ status := "success", offlineId := x.offlineId, message := none,
                     transaction := some t0 } : SyncResult) :: rs, t0 :: entries,
      ?_, ?_, ?_, ?_, ?_, ?_, ?_⟩
    · simp only [syncLoop, hstep, hl]
    · simp [hlen]
    · intro r hr
      rcases List.mem_cons.mp hr with e | e
      · rw [e]
      · exact hst r e
    · rw [htx]; simp
    · simp [helen]
    · intro i y e hy he
      cases i with
      | zero =>
        simp only [List.getElem?_cons_zero, Option.some.injEq] at hy he
        subst hy he
        refine ⟨hf1, by rw [ha, hf2], hf3, ?_⟩
        simp [hf4, hf2]
      | succ j =>
        simp only [List.getElem?_cons_succ] at hy he
        obtain ⟨h1, h2, h3, h4⟩ := hidx j y e hy he
        refine ⟨h1, h2, h3, ?_⟩
        rw [h4]
        simp only [List.take_succ_cons, List.map_cons, List.sum_cons, hf2]
        ring
    · rw [hcr]
      simp only [List.map_cons, List.sum_cons, hf2]
      congr 1
      ring

/-! ## A batch sent a second time -/

theorem findOne_some_iff (txs : List Transaction) (k : Option String) :
    (∃ e, findOneByOfflineId txs k = some e) ↔ ∃ t ∈ txs, t.offlineId = k := by
  unfold findOneByOfflineId
  rw [← Option.isSome_iff_exists, List.find?_isSome]
  simp

theorem findOne_none_iff (txs : List Transaction) (k : Option String) :
    findOneByOfflineId txs k = none ↔ ¬ ∃ t ∈ txs, t.offlineId = k := by
  rw [← findOne_some_iff, ← Option.isSome_iff_exists]
  cases findOneByOfflineId txs k <;> simp

theorem findById_none_iff (users : List User) (o : Option ObjectId) :
    findById users o = none ↔ ∀ v, o = some v → v ∉ users.map (fun u => u.id) := by
  cases o with
  | none => simp [findById]
  | some v =>
    simp only [findById, List.find?_eq_none, Option.some.injEq, List.mem_map, not_exists, not_and]
    constructor
    · intro h w hw u hu e
      subst hw
      exact h u hu (by simpa using e)
    · intro h u hu e
      exact h v rfl u hu (by simpa using e)

theorem findById_none_congr {users users1 : List User} (o : Option ObjectId)
    (h : users1.map (fun u => u.id) = users.map (fun u => u.id)) :
    findById users1 o = none ↔ findById users o = none := by
  rw [findById_none_iff, findById_none_iff, h]

theorem syncItem_grows {committed : List Transaction} {tid : Option String} {now : Nat}
    {ses ses1 : Session} {x : SyncItem} {r : SyncResult}
    (h : syncItem committed tid now ses x = some (ses1, r)) :
    (∀ t ∈ ses.transactions, t ∈ ses1.transactions) ∧
      ses1.users.map (fun u => u.id) = ses.users.map (fun u => u.id) := by
  rcases syncItem_cases h with ⟨-, hs, -⟩ | ⟨-, -, hs, -⟩ | ⟨user, t, -, -, -, hs, -⟩
  · subst hs; exact ⟨fun _ ht => ht, rfl⟩
  · subst hs; exact ⟨fun _ ht => ht, rfl⟩
  · subst hs
    exact ⟨fun _ ht => List.mem_append_left _ ht, saveCredit_map_id _ _ _ _⟩

theorem syncLoop_first_run {committed : List Transaction} {tid : Option String} {now : Nat}
    (items : List SyncItem) {ses ses2 : Session} {rs : List SyncResult}
    (h : syncLoop committed tid now ses items = some (ses2, rs))
    (hc : ∀ t ∈ committed, t ∈ ses.transactions) :
    (∀ t ∈ ses.transactions, t ∈ ses2.transactions) ∧
      ses2.users.map (fun u => u.id) = ses.users.map (fun u => u.id) ∧
      List.Forall₂ (fun x r => r.offlineId = x.offlineId ∧
        ((∃ t ∈ ses2.transactions, t.offlineId = x.offlineId) ∨
          (r.status = "error" ∧ findById ses2.users x.userId = none))) items rs := by
  induction items generalizing ses rs with
  | nil =>
    simp only [syncLoop, Option.some.injEq, Prod.mk.injEq] at h
    obtain ⟨h1, h2⟩ := h
    subst h1 h2
    exact ⟨fun _ ht => ht, rfl, List.Forall₂.nil⟩
  | cons x rest ih =>
    obtain ⟨ses1, r, rs1, h1, h2, hrs⟩ := syncLoop_cons h
    subst hrs
    obtain ⟨hg1, hg2⟩ := syncItem_grows h1
    obtain ⟨ih1, ih2, ih3⟩ := ih h2 (fun t ht => hg1 t (hc t ht))
    refine ⟨fun t ht => ih1 t (hg1 t ht), by rw [ih2, hg2], List.Forall₂.cons ?_ ih3⟩
    rcases syncItem_cases h1 with ⟨he, hs, hr⟩ | ⟨-, hu, hs, hr⟩ | ⟨user, t, -, -, ht, hs, hr⟩
    · subst hr
      refine ⟨rfl, Or.inl ?_⟩
      obtain ⟨e, he1, he2⟩ := (findOne_some_iff _ _).mp he
      exact ⟨e, ih1 e (hg1 e (hc e he1)), he2⟩
    · subst hr
      refine ⟨rfl, Or.inr ⟨rfl, ?_⟩⟩
      rw [findById_none_congr x.userId (ih2.trans hg2)]
      exact hu
    · subst hr
      refine ⟨rfl, Or.inl ⟨t, ih1 t ?_, (newTransaction_fields ht).2.2.2.2.2.2.1⟩⟩
      rw [hs]
      simp

theorem syncLoop_second_run (tid : Option String) (now : Nat) (ses : Session)
    (items : List SyncItem)
    (h : ∀ x ∈ items, (∃ t ∈ ses.transactions, t.offlineId = x.offlineId) ∨
      findById ses.users x.userId = none) :
    ∃ rs, syncLoop ses.transactions tid now ses items = some (ses, rs) ∧
      List.Forall₂ (fun x r => r.offlineId = x.offlineId ∧
        (r.status = "skipped" ∨
          (r.status = "error" ∧ ¬ ∃ t ∈ ses.transactions, t.offlineId = x.offlineId))) items rs := by
  induction items with
  | nil => exact ⟨[], rfl, List.Forall₂.nil⟩
  | cons x rest ih =>
    obtain ⟨rs, hl, hf⟩ := ih (fun y hy => h y (List.mem_cons_of_mem _ hy))
    by_cases hk : ∃ t ∈ ses.transactions, t.offlineId = x.offlineId
    · obtain ⟨e, he⟩ := (findOne_some_iff _ _).mpr hk
      refine ⟨{ status := "skipped", offlineId := x.offlineId,
                message := some "Transaction already processed", transaction := none } :: rs,
        ?_, List.Forall₂.cons ⟨rfl, Or.inl rfl⟩ hf⟩
      simp only [syncLoop, syncItem, he, hl]
    · have hu : findById ses.users x.userId = none := by
        rcases h x (List.mem_cons_self _ _) with h1 | h1
        · exact absurd h1 hk
        · exact h1
      have hn := (findOne_none_iff _ _).mpr hk
      refine ⟨{ status := "error", offlineId := x.offlineId,
                message := some "User not found", transaction := none } :: rs,
        ?_, List.Forall₂.cons ⟨rfl, Or.inr ⟨rfl, hk⟩⟩ hf⟩
      simp only [syncLoop, syncItem, hn, hu, hl]

theorem forall₂_join {α β γ : Type} {R : α → β → Prop} {S : α → γ → Prop} {T : β → γ → Prop}
    (hT : ∀ a b c, R a b → S a c → T b c) :
    ∀ {l : List α} {l1 : List β} {l2 : List γ},
      List.Forall₂ R l l1 → List.Forall₂ S l l2 → List.Forall₂ T l1 l2
  | _, _, _, List.Forall₂.nil, List.Forall₂.nil => List.Forall₂.nil
  | _, _, _, List.Forall₂.cons h1 t1, List.Forall₂.cons h2 t2 =>
    List.Forall₂.cons (hT _ _ _ h1 h2) (forall₂_join hT t1 t2)

theorem forall₂_left {α β : Type} {R : α → β → Prop} :
    ∀ {l : List α} {l1 : List β}, List.Forall₂ R l l1 → ∀ a ∈ l, ∃ b, R a b
  | _, _, List.Forall₂.nil, _, ha => absurd ha (List.not_mem_nil _)
  | _, _, List.Forall₂.cons h1 t1, a, ha => by
    rcases List.mem_cons.mp ha with e | e
    · exact ⟨_, e ▸ h1⟩
    · exact forall₂_left t1 a e

theorem postSyncTransactions_of_loop {s : Store} {now : Nat} {req : SyncRequest}
    {items : List SyncItem} {ses : Session} {rs : List SyncResult}
    (hit : req.transactions = some items)
    (hl : syncLoop s.transactions req.terminalId now
      { users := s.users, transactions := s.transactions } items = some (ses, rs)) :
    (postSyncTransactions s now req).2 = .synchronized rs ∧
      (postSyncTransactions s now req).1.users = ses.users ∧
      (postSyncTransactions s now req).1.transactions = ses.transactions := by
  simp only [postSyncTransactions, hit, hl, and_self]

theorem forall₂_right {α β : Type} {R : α → β → Prop} :
    ∀ {l : List α} {l1 : List β}, List.Forall₂ R l l1 → ∀ b ∈ l1, ∃ a ∈ l, R a b
  | _, _, List.Forall₂.nil, _, hb => absurd hb (List.not_mem_nil _)
  | _, _, List.Forall₂.cons h1 t1, b, hb => by
    rcases List.mem_cons.mp hb with e | e
    · exact ⟨_, List.mem_cons_self _ _, e ▸ h1⟩
    · obtain ⟨a, ha, hab⟩ := forall₂_right t1 b e
      exact ⟨a, List.mem_cons_of_mem _ ha, hab⟩

/-- A batch that was answered 200 once and is sent again is answered 200 with
one result per result of the first answer, in order and with the same key,
whose status is `skipped`, or `error` where the first answer said `error`; the
second call writes no ledger entry and leaves every user document unchanged. -/
theorem postSyncTransactions_resubmit (s : Store) (now now2 : Nat) (req : SyncRequest)
    (rs1 : List SyncResult)
    (h : (postSyncTransactions s now req).2 = .synchronized rs1) :
    ∃ rs2,
      (postSyncTransactions (postSyncTransactions s now req).1 now2 req).2 = .synchronized rs2 ∧
      (postSyncTransactions (postSyncTransactions s now req).1 now2 req).1.transactions =
        (postSyncTransactions s now req).1.transactions ∧
      (postSyncTransactions (postSyncTransactions s now req).1 now2 req).1.users =
        (postSyncTransactions s now req).1.users ∧
      List.Forall₂ (fun r1 r2 => r2.offlineId = r1.offlineId ∧
        (r2.status = "skipped" ∨ (r2.status = "error" ∧ r1.status = "error"))) rs1 rs2 := by
  have hpair : postSyncTransactions s now req =
      ((postSyncTransactions s now req).1, .synchronized rs1) := by rw [← h]
  obtain ⟨items, ses, hit, hl, hu, ht⟩ := postSyncTransactions_synchronized hpair
  obtain ⟨-, -, hA⟩ := syncLoop_first_run items hl (fun _ ht => ht)
  have hcond : ∀ x ∈ items, (∃ t ∈ ses.transactions, t.offlineId = x.offlineId) ∨
      findById ses.users x.userId = none := by
    intro x hx
    obtain ⟨r, -, hr⟩ := forall₂_left hA x hx
    rcases hr with hr | ⟨-, hr⟩
    · exact Or.inl hr
    · exact Or.inr hr
  obtain ⟨rs2, hl2, hB⟩ := syncLoop_second_run req.terminalId now2 ses items hcond
  have hses : ({ users := (postSyncTransactions s now req).1.users,
                 transactions := (postSyncTransactions s now req).1.transactions } : Session) =
      ses := by
    rw [hu, ht]
  have hl2' : syncLoop (postSyncTransactions s now req).1.transactions req.terminalId now2
      { users := (postSyncTransactions s now req).1.users,
        transactions := (postSyncTransactions s now req).1.transactions } items =
      some (ses, rs2) := by
    rw [hses, ht]; exact hl2
  obtain ⟨hr, hus, htx⟩ := postSyncTransactions_of_loop hit hl2'
  refine ⟨rs2, hr, by rw [htx, ht], by rw [hus, hu], ?_⟩
  refine forall₂_join ?_ hA hB
  rintro x r1 r2 ⟨hk1, h1⟩ ⟨hk2, h2⟩
  refine ⟨by rw [hk1, hk2], ?_⟩
  rcases h2 with h2 | ⟨h2, hno⟩
  · exact Or.inl h2
  · rcases h1 with h1 | ⟨h1, -⟩
    · exact absurd h1 hno
    · exact Or.inr ⟨h2, h1⟩

/-! ## Lemmas on the consistency check -/

/-- For whole numbers the tolerance test is the test for a difference. -/
theorem inconsistent_iff (c e : Int) : inconsistent c e = true ↔ c ≠ e := by
  simp only [inconsistent, decide_eq_true_eq, gt_iff_lt]
  rw [← Int.cast_sub, ← Int.cast_abs]
  constructor
  · intro h hce
    subst hce
    simp at h
    norm_num at h
  · intro h
    have h1 : 1 ≤ |c - e| := Int.one_le_abs (sub_ne_zero.mpr h)
    have h2 : (1 : ℚ) ≤ ((|c - e| : Int) : ℚ) := by exact_mod_cast h1
    linarith

theorem consistencyCheck_users (s : Store) :
    (consistencyCheck s).users =
      s.users.map (fun u =>
        if u.active then { u with credit := expectedCredit s.transactions u.id } else u) := by
  simp only [consistencyCheck]
  apply List.map_congr_left
  intro u _
  by_cases ha : u.active = true
  · rw [if_pos ha, if_pos ha]
    by_cases hi : inconsistent u.credit (expectedCredit s.transactions u.id) = true
    · rw [if_pos hi]
    · have : u.credit = expectedCredit s.transactions u.id := by
        by_contra hne
        exact hi ((inconsistent_iff _ _).mpr hne)
      rw [if_neg hi, ← this]
  · rw [if_neg ha, if_neg ha]

theorem foldl_amount_cast (l : List Transaction) (a : Int) :
    (l.map Transaction.toAudit).foldl (fun sum t => sum + t.amount) (a : ℚ) =
      ((l.foldl (fun sum t => sum + t.amount) a : Int) : ℚ) := by
  induction l generalizing a with
  | nil => rfl
  | cons t l ih =>
    simp only [List.map_cons, List.foldl_cons]
    have h : (a : ℚ) + (Transaction.toAudit t).amount = ((a + t.amount : Int) : ℚ) := by
      simp [Transaction.toAudit]
    rw [h, ih]

theorem expectedCreditOf_toAudit (txs : List Transaction) (uid : ObjectId) :
    expectedCreditOf (txs.map Transaction.toAudit) uid = (expectedCredit txs uid : ℚ) := by
  unfold expectedCreditOf expectedCredit findByUserId
  have hf : (txs.map Transaction.toAudit).filter (fun t => t.userId == uid) =
      (txs.filter (fun t => t.userId == uid)).map Transaction.toAudit := by
    rw [List.filter_map]
    rfl
  rw [hf]
  have h := foldl_amount_cast (txs.filter (fun t => t.userId == uid)) 0
  simpa using h

/-- On a store of whole credits and amounts, the job on `Number`s is the job on
the store. -/
theorem consistencyCheckOn_toAudit (s : Store) :
    consistencyCheckOn (s.users.map User.toAudit) (s.transactions.map Transaction.toAudit) =
      (consistencyCheck s).users.map User.toAudit := by
  simp only [consistencyCheckOn, consistencyCheck, List.map_map]
  apply List.map_congr_left
  intro u _
  simp only [Function.comp_apply]
  have he : expectedCreditOf (s.transactions.map Transaction.toAudit) (User.toAudit u).id =
      (expectedCredit s.transactions u.id : ℚ) := expectedCreditOf_toAudit s.transactions u.id
  have hc : (User.toAudit u).credit = (u.credit : ℚ) := rfl
  have hact : (User.toAudit u).active = u.active := rfl
  rw [he, hc, hact]
  by_cases ha : u.active = true
  · rw [if_pos ha, if_pos ha]
    by_cases hi : inconsistent u.credit (expectedCredit s.transactions u.id) = true
    · rw [if_pos hi, if_pos hi]
      rfl
    · rw [if_neg hi, if_neg hi]
  · rw [if_neg ha, if_neg ha]

/-- What one run of the job does reach on `Number`s: every active user's credit
is within 0.01 of the sum of the user's ledger amounts afterwards. -/
theorem consistencyCheckOn_within_tolerance (users : List AuditUser) (txs : List AuditEntry)
    (u : AuditUser) (hu : u ∈ consistencyCheckOn users txs) (hactive : u.active = true) :
    |u.credit - expectedCreditOf txs u.id| ≤ 1 / 100 := by
  simp only [consistencyCheckOn, List.mem_map] at hu
  obtain ⟨u0, -, hu0⟩ := hu
  by_cases ha : u0.active = true
  · rw [if_pos ha] at hu0
    by_cases hi : inconsistent u0.credit (expectedCreditOf txs u0.id) = true
    · rw [if_pos hi] at hu0
      subst hu0
      simp
    · rw [if_neg hi] at hu0
      subst hu0
      simpa [inconsistent] using hi
  · rw [if_neg ha] at hu0
    subst hu0
    exact absurd hactive ha

/-- A second run of the job on `Number`s writes nothing: the tolerance does not
make the job drift. -/
theorem consistencyCheckOn_idempotent (users : List AuditUser) (txs : List AuditEntry) :
    consistencyCheckOn (consistencyCheckOn users txs) txs = consistencyCheckOn users txs := by
  have hsame : ∀ e : ℚ, inconsistent e e = false := by
    intro e
    simp [inconsistent]
  simp only [consistencyCheckOn, List.map_map]
  apply List.map_congr_left
  intro u _
  simp only [Function.comp_apply]
  by_cases ha : u.active = true
  · rw [if_pos ha]
    by_cases hi : inconsistent u.credit (expectedCreditOf txs u.id) = true
    · rw [if_pos hi]
      have ha2 : ({ u with credit := expectedCreditOf txs u.id } : AuditUser).active = true := ha
      rw [if_pos ha2]
      have hs := hsame (expectedCreditOf txs u.id)
      have hi2 : ¬ inconsistent ({ u with credit := expectedCreditOf txs u.id } : AuditUser).credit
          (expectedCreditOf txs ({ u with credit := expectedCreditOf txs u.id } : AuditUser).id) =
          true := by
        show ¬ inconsistent (expectedCreditOf txs u.id) (expectedCreditOf txs u.id) = true
        rw [hs]
        simp
      rw [if_neg hi2]
    · rw [if_neg hi, if_pos ha, if_neg hi]
  · rw [if_neg ha, if_neg ha]

/-- On a store of whole credits and amounts, every active user's credit equals
the sum of the user's ledger amounts after one run of the job. -/
theorem consistencyCheck_converges (s : Store) (u : User)
    (hu : u ∈ (consistencyCheck s).users) (hactive : u.active = true) :
    u.credit = ledgerSum (consistencyCheck s) u.id := by
  have hl : ledgerSum (consistencyCheck s) u.id = expectedCredit s.transactions u.id := by
    rw [expectedCredit_eq_sum]; rfl
  rw [hl]
  rw [consistencyCheck_users, List.mem_map] at hu
  obtain ⟨u0, -, hu0⟩ := hu
  by_cases ha : u0.active = true
  · rw [if_pos ha] at hu0
    subst hu0
    rfl
  · rw [if_neg ha] at hu0
    subst hu0
    exact absurd hactive ha

/-! ## The claims -/

/-- C1 (idempotence of apply), evaluated on the handler: posting the purchase of 45
with the key `t1-100-abc` twice leaves two ledger entries with that key, takes
the amount off the credit twice (500, 455, 410), and the second call answers
with a new entry instead of the entry written by the first call. -/
theorem postTransactions_replay_applies_twice :
    (entriesWithKey firstApply.1 "t1-100-abc").length = 1 ∧
      creditOf firstApply.1 1 = some 455 ∧
      (entriesWithKey secondApply.1 "t1-100-abc").length = 2 ∧
      creditOf secondApply.1 1 = some 410 ∧
      secondApply.2 ≠ firstApply.2 := by
  decide

/-- C2 as stated fails: account B has credit 30 and posts a purchase of 40. The
request is answered 201 with an entry of balance -10, the credit becomes -10 and
the ledger holds the entry. -/
theorem purchase_beyond_credit_is_committed :
    0 ≤ bob.credit ∧ bob.credit + (-40) < 0 ∧
      (postTransactions sampleStore 1 purchase40).2 =
        .created { userId := 2, type := "purchase", amount := -40, item := some "latte",
                   balance := -10, terminalId := "t1", offlineId := some "t1-300-ghi",
                   timestamp := 1, synced := true } ∧
      creditOf (postTransactions sampleStore 1 purchase40).1 2 = some (-10) ∧
      (postTransactions sampleStore 1 purchase40).1.transactions.length = 1 := by
  decide

/-- C2 as amended: the handlers carry no balance check. For every account with
credit `b ≥ 0` and every purchase whose amount `a` gives `b + a < 0`, the request
is committed: `POST /api/v1/transactions` answers 201, appends one entry with
balance `b + a` and sets the credit to `b + a`; a one-item batch with a key
that is not in the ledger does the same with status `success`. -/
theorem purchase_without_balance_check (s : Store) (now : Nat) (user : User) (uid : ObjectId)
    (a : Int) (td : String) (item key : Option String) (date : Nat)
    (hu : findById s.users (some uid) = some user) (_hb : 0 ≤ user.credit)
    (hneg : user.credit + a < 0) (htd : td ≠ "") :
    (∃ t, postTransactions s now
          { userId := some uid, type := some "purchase", amount := some a, item := item,
            terminalId := some td, offlineId := key } =
          ({ s with users := saveCredit s.users uid (user.credit + a) now
                    transactions := s.transactions ++ [t] }, .created t) ∧
        t.balance = user.credit + a ∧ t.balance < 0 ∧
        creditOf { s with users := saveCredit s.users uid (user.credit + a) now
                          transactions := s.transactions ++ [t] } uid = some (user.credit + a)) ∧
    (findOneByOfflineId s.transactions key = none →
      ∃ t, (postSyncTransactions s now
            { terminalId := some td,
              transactions := some [{ userId := some uid, type := some "purchase",
                                      amount := some a, item := item, offlineId := key,
                                      date := date }] }).2 =
          .synchronized [{ status := "success", offlineId := key, message := none,
                           transaction := some t }] ∧
        t.balance = user.credit + a ∧ t.balance < 0 ∧
        (postSyncTransactions s now
            { terminalId := some td,
              transactions := some [{ userId := some uid, type := some "purchase",
                                      amount := some a, item := item, offlineId := key,
                                      date := date }] }).1.transactions = s.transactions ++ [t] ∧
        creditOf (postSyncTransactions s now
            { terminalId := some td,
              transactions := some [{ userId := some uid, type := some "purchase",
                                      amount := some a, item := item, offlineId := key,
                                      date := date }] }).1 uid = some (user.credit + a)) := by
  constructor
  · refine ⟨_, postTransactions_accepts s now _ user uid "purchase" a td hu rfl rfl
      (Or.inr rfl) rfl rfl htd, rfl, hneg, ?_⟩
    exact creditOf_saveCredit s uid user _ now _ hu
  · intro hk
    obtain ⟨t, hstep, -, -, -, hbal⟩ :=
      syncItem_success_entry s.transactions td now
        { users := s.users, transactions := s.transactions }
        { userId := some uid, type := some "purchase", amount := some a, item := item,
          offlineId := key, date := date }
        user uid "purchase" a hk hu rfl rfl (Or.inr rfl) rfl htd
    have hl : syncLoop s.transactions (some td) now
        { users := s.users, transactions := s.transactions }
        [{ userId := some uid, type := some "purchase", amount := some a, item := item,
           offlineId := key, date := date }] =
        some ({ users := saveCredit s.users uid (user.credit + a) now
                transactions := s.transactions ++ [t] },
              [{ status := "success", offlineId := key, message := none,
                 transaction := some t }]) := by
      simp only [syncLoop, hstep]
    have hreq : ({ terminalId := some td,
                   transactions := some [{ userId := some uid, type := some "purchase",
                                           amount := some a, item := item, offlineId := key,
                                           date := date }] } : SyncRequest).transactions =
        some [{ userId := some uid, type := some "purchase", amount := some a, item := item,
                offlineId := key, date := date }] := rfl
    obtain ⟨h1, h2, h3⟩ := postSyncTransactions_of_loop hreq hl
    refine ⟨t, h1, hbal, by rw [hbal]; exact hneg, h3, ?_⟩
    simp only [creditOf, h2, findById_saveCredit, hu, findById_id hu, Option.map_some',
      beq_self_eq_true, if_true]

/-- Witness for C2 as amended: account B (credit 30) and the purchase of 40,
posted directly and sent as a one-item batch. -/
theorem purchase_without_balance_check_witness :
    (∃ t, postTransactions sampleStore 1 purchase40 =
          ({ sampleStore with
              users := saveCredit sampleStore.users 2 (bob.credit + (-40)) 1
              transactions := sampleStore.transactions ++ [t] }, .created t) ∧
        t.balance = bob.credit + (-40) ∧ t.balance < 0 ∧
        creditOf { sampleStore with
                    users := saveCredit sampleStore.users 2 (bob.credit + (-40)) 1
                    transactions := sampleStore.transactions ++ [t] } 2 =
          some (bob.credit + (-40))) ∧
    (∃ t, (postSyncTransactions sampleStore 1 purchase40Batch).2 =
          .synchronized [{ status := "success", offlineId := some "t1-300-ghi",
                           message := none, transaction := some t }] ∧
        t.balance = bob.credit + (-40) ∧ t.balance < 0 ∧
        (postSyncTransactions sampleStore 1 purchase40Batch).1.transactions =
          sampleStore.transactions ++ [t] ∧
        creditOf (postSyncTransactions sampleStore 1 purchase40Batch).1 2 =
          some (bob.credit + (-40))) :=
  have h := purchase_without_balance_check sampleStore 1 bob 2 (-40) "t1" (some "latte")
    (some "t1-300-ghi") 300 (by decide) (by decide) (by decide) (by decide)
  ⟨h.1, h.2 (by decide)⟩

/-- The route `POST /api/v1/transactions` keeps the distance between credit and
ledger that the creation of the account left: for every account created
through `POST /api/v1/users` (with a new id) and every finite sequence of
`POST /api/v1/transactions` calls, the credit of the account after the sequence
equals its credit at creation (`credit || 500`) plus the sum of `amount` over
the ledger entries whose `userId` is that account. -/
theorem credit_is_initial_credit_plus_ledger_sum (s : Store) (now : Nat) (newId : ObjectId)
    (xUserId : Option ObjectId) (req : UserRequest) (u : User)
    (calls : List (Nat × TransactionRequest))
    (hcreate : (postUsers s now newId xUserId req).2 = .created u)
    (hnew : findById s.users (some newId) = none)
    (hfresh : ∀ t ∈ s.transactions, t.userId ≠ newId) :
    u.id = newId ∧
      u.credit = (if req.credit.getD 0 == 0 then 500 else req.credit.getD 0) ∧
      creditOf (runTransactions (postUsers s now newId xUserId req).1 calls) newId =
        some (u.credit +
          ledgerSum (runTransactions (postUsers s now newId xUserId req).1 calls) newId) := by
  have hpair : postUsers s now newId xUserId req =
      ((postUsers s now newId xUserId req).1, .created u) := by rw [← hcreate]
  obtain ⟨hs, hid, hcr⟩ := postUsers_created hpair
  refine ⟨hid, hcr, ?_⟩
  apply runTransactions_offset
  rw [hs]
  have hsum : ledgerSum { s with users := s.users ++ [u] } newId = 0 :=
    ledgerSum_fresh _ newId hfresh
  rw [hsum, add_zero]
  simp only [findById] at hnew
  simp [creditOf, findById, List.find?_append, hnew, hid]

/-- C3 (balance equals ledger sum), evaluated on the handlers: an administrator
creates an account without giving a credit. `POST /api/v1/users` stores the
credit 500 and writes no ledger entry, so the credit is 500 while the ledger sum
is 0; after one recharge of 100 the credit is 600 while the ledger sum is 100.
The consistency check run on that store takes the ledger sum for the truth and
sets the credit to 100. -/
theorem created_account_credit_is_not_ledger_sum :
    carolCreated.2 = .created { id := 7, name := "Carol", rfid := "rfid-7", credit := 500,
                                isAdmin := false, createdAt := 5, updatedAt := 5,
                                lastActivity := some 5, active := true } ∧
      creditOf carolCreated.1 7 = some 500 ∧
      ledgerSum carolCreated.1 7 = 0 ∧
      creditOf (runTransactions carolCreated.1 [(6, carolRecharge)]) 7 = some 600 ∧
      ledgerSum (runTransactions carolCreated.1 [(6, carolRecharge)]) 7 = 100 ∧
      creditOf (consistencyCheck (runTransactions carolCreated.1 [(6, carolRecharge)])) 7 =
        some 100 := by
  refine ⟨by decide, by decide, by decide, by decide, by decide, ?_⟩
  simp only [creditOf, consistencyCheck_users]
  decide

/-- C4 (postcondition of a committed apply): for every existing account with
credit `b` and every request with amount `a` that `POST /api/v1/transactions`
answers with 201 and the entry `t`, the ledger after the call is the ledger
before it followed by `t` alone, `t.balance = b + a`, the fields `userId`,
`type`, `amount`, `item`, `terminalId` and `offlineId` of `t` are those of the
request, and the credit of the account is `b + a`. -/
theorem postTransactions_postcondition (s : Store) (now : Nat) (req : TransactionRequest)
    (user : User) (uid : ObjectId) (a : Int) (t : Transaction)
    (hu : findById s.users (some uid) = some user) (hid : req.userId = some uid)
    (ha : req.amount = some a)
    (h : (postTransactions s now req).2 = .created t) :
    (postTransactions s now req).1.transactions = s.transactions ++ [t] ∧
      t.balance = user.credit + a ∧ t.userId = uid ∧ req.type = some t.type ∧ t.amount = a ∧
      t.item = req.item ∧ req.terminalId = some t.terminalId ∧ t.offlineId = req.offlineId ∧
      creditOf (postTransactions s now req).1 uid = some (user.credit + a) := by
  rcases postTransactions_cases s now req with ⟨-, hno⟩ | ⟨user1, t1, hu1, ht1, hp⟩
  · exact absurd h (hno t)
  · rw [hp] at h ⊢
    simp only [TransactionResponse.created.injEq] at h
    subst h
    rw [hid, hu] at hu1
    simp only [Option.some.injEq] at hu1
    subst hu1
    rw [ha, Option.getD_some] at ht1
    obtain ⟨h1, h2, h3, h4, h5, h6, h7, -, -, -⟩ := newTransaction_fields ht1
    rw [hid] at h1
    simp only [Option.some.injEq] at h1 h3
    refine ⟨rfl, h5, h1.symm, h2, h3.symm, h4, h6, h7, ?_⟩
    rw [ha, Option.getD_some, findById_id hu]
    exact creditOf_saveCredit s uid user _ now _ hu

/-- Witness for C4: the purchase of 45 by account A (credit 500). -/
theorem postTransactions_postcondition_witness :
    (postTransactions sampleStore 1 purchaseRequest).1.transactions =
        sampleStore.transactions ++
          [{ userId := 1, type := "purchase", amount := -45, item := some "espresso",
             balance := 455, terminalId := "t1", offlineId := some "t1-100-abc",
             timestamp := 1, synced := true }] ∧
      creditOf (postTransactions sampleStore 1 purchaseRequest).1 1 = some (500 + (-45)) :=
  have h := postTransactions_postcondition sampleStore 1 purchaseRequest alice 1 (-45)
    { userId := 1, type := "purchase", amount := -45, item := some "espresso",
      balance := 455, terminalId := "t1", offlineId := some "t1-100-abc",
      timestamp := 1, synced := true }
    (by decide) (by decide) (by decide) (by decide)
  ⟨h.1, h.2.2.2.2.2.2.2.2⟩

/-- C5 (ordered batch application): for every existing account with credit `b`
and every batch of `n` schema-valid items on that account whose keys are not
in the ledger, sent with a terminal id, `POST /api/v1/sync-transactions`
answers 200 with `n` results all of status `success`, appends `n` entries to
the ledger, the `i`-th of which carries the key and amount of the `i`-th item
and the balance `b + (a_1 + ... + a_i)`, and leaves the credit at
`b + (a_1 + ... + a_n)`. (The keys of the batch need not be distinct for this:
the duplicate lookup reads the committed ledger.) -/
theorem postSyncTransactions_in_order (s : Store) (now : Nat) (req : SyncRequest)
    (td : String) (items : List SyncItem) (uid : ObjectId) (user : User)
    (hu : findById s.users (some uid) = some user)
    (htid : req.terminalId = some td) (htd : td ≠ "")
    (hreq : req.transactions = some items)
    (hitems : ∀ x ∈ items, x.userId = some uid ∧
      (x.type = some "recharge" ∨ x.type = some "purchase") ∧ x.amount ≠ none ∧
      findOneByOfflineId s.transactions x.offlineId = none) :
    ∃ results entries,
      (postSyncTransactions s now req).2 = .synchronized results ∧
      results.length = items.length ∧ (∀ r ∈ results, r.status = "success") ∧
      (postSyncTransactions s now req).1.transactions = s.transactions ++ entries ∧
      entries.length = items.length ∧
      (∀ (i : Nat) (x : SyncItem) (e : Transaction), items[i]? = some x → entries[i]? = some e →
        e.userId = uid ∧ x.amount = some e.amount ∧ e.offlineId = x.offlineId ∧
        e.balance = user.credit + ((entries.take (i + 1)).map (fun t => t.amount)).sum) ∧
      creditOf (postSyncTransactions s now req).1 uid =
        some (user.credit + (entries.map (fun t => t.amount)).sum) := by
  obtain ⟨ses2, rs, entries, hl, hlen, hst, htx, helen, hidx, hcr⟩ :=
    syncLoop_valid s.transactions td now uid htd items hitems
      { users := s.users, transactions := s.transactions } user hu
  rw [← htid] at hl
  obtain ⟨h1, h2, h3⟩ := postSyncTransactions_of_loop hreq hl
  refine ⟨rs, entries, h1, hlen, hst, by rw [h3, htx], helen, hidx, ?_⟩
  simp only [creditOf, h2]
  exact hcr

/-- Witness for C5: credit 500, then the purchase of 45 (`t1-100-abc`) and the
recharge of 100 (`t1-200-def`) in one batch: two results `success`, balances
455 and 555, final credit 555. -/
theorem postSyncTransactions_in_order_witness :
    (∃ results entries,
      (postSyncTransactions sampleStore 7 offlineBatch).2 = .synchronized results ∧
      results.length = [purchase45, recharge100].length ∧
      (∀ r ∈ results, r.status = "success") ∧
      (postSyncTransactions sampleStore 7 offlineBatch).1.transactions =
        sampleStore.transactions ++ entries ∧
      entries.length = [purchase45, recharge100].length ∧
      (∀ (i : Nat) (x : SyncItem) (e : Transaction),
        [purchase45, recharge100][i]? = some x → entries[i]? = some e →
        e.userId = 1 ∧ x.amount = some e.amount ∧ e.offlineId = x.offlineId ∧
        e.balance = alice.credit + ((entries.take (i + 1)).map (fun t => t.amount)).sum) ∧
      creditOf (postSyncTransactions sampleStore 7 offlineBatch).1 1 =
        some (alice.credit + (entries.map (fun t => t.amount)).sum)) ∧
    (postSyncTransactions sampleStore 7 offlineBatch).1.transactions.map (fun t => t.balance) =
      [455, 555] ∧
    creditOf (postSyncTransactions sampleStore 7 offlineBatch).1 1 = some 555 :=
  ⟨postSyncTransactions_in_order sampleStore 7 offlineBatch "t1" [purchase45, recharge100] 1
      alice (by decide) (by decide) (by decide) (by decide) (by decide),
    by decide, by decide⟩

/-- C6 (batch resubmission is a no-op): for every batch whose items all carry
an idempotency key and that `POST /api/v1/sync-transactions` has committed once
(answered 200 with no item reported `error`), sending the same batch again is
answered 200 with one result per item, in order and with the key of the item,
every one with status `skipped`; the second call writes no ledger entry and
leaves every user document, and so every credit, unchanged. -/
theorem postSyncTransactions_resubmit_skips (s : Store) (now now2 : Nat) (req : SyncRequest)
    (items : List SyncItem) (rs1 : List SyncResult)
    (hitems : req.transactions = some items)
    (_hkeys : ∀ x ∈ items, truthy x.offlineId = true)
    (h : (postSyncTransactions s now req).2 = .synchronized rs1)
    (hok : ∀ r ∈ rs1, r.status ≠ "error") :
    ∃ rs2,
      (postSyncTransactions (postSyncTransactions s now req).1 now2 req).2 = .synchronized rs2 ∧
      rs2.length = items.length ∧
      (∀ (i : Nat) (x : SyncItem) (r : SyncResult), items[i]? = some x → rs2[i]? = some r →
        r.offlineId = x.offlineId) ∧
      (∀ r ∈ rs2, r.status = "skipped") ∧
      (postSyncTransactions (postSyncTransactions s now req).1 now2 req).1.transactions =
        (postSyncTransactions s now req).1.transactions ∧
      (postSyncTransactions (postSyncTransactions s now req).1 now2 req).1.users =
        (postSyncTransactions s now req).1.users := by
  obtain ⟨rs2, hr, htx, hus, hf⟩ := postSyncTransactions_resubmit s now now2 req rs1 h
  have hpair : postSyncTransactions (postSyncTransactions s now req).1 now2 req =
      ((postSyncTransactions (postSyncTransactions s now req).1 now2 req).1,
        .synchronized rs2) := by rw [← hr]
  obtain ⟨items2, ses2, hit2, hl2, -, -⟩ := postSyncTransactions_synchronized hpair
  rw [hitems] at hit2
  simp only [Option.some.injEq] at hit2
  subst hit2
  obtain ⟨hk, -⟩ := syncLoop_results items hl2
  refine ⟨rs2, hr, ?_, ?_, ?_, htx, hus⟩
  · simpa using congrArg List.length hk
  · intro i x r hx hr2
    have := congrArg (fun l => l[i]?) hk
    simp only [List.getElem?_map, hx, hr2, Option.map_some', Option.some.injEq] at this
    exact this
  · intro r2 hr2
    obtain ⟨r1, hr1, -, hst⟩ := forall₂_right hf r2 hr2
    rcases hst with hst | ⟨-, hst⟩
    · exact hst
    · exact absurd hst (hok r1 hr1)

/-- Witness for C6: the two-item batch of account A, committed with two
`success` results and sent again. -/
theorem postSyncTransactions_resubmit_skips_witness :
    ∃ rs2,
      (postSyncTransactions (postSyncTransactions sampleStore 7 offlineBatch).1 8
        offlineBatch).2 = .synchronized rs2 ∧
      rs2.length = [purchase45, recharge100].length ∧
      (∀ (i : Nat) (x : SyncItem) (r : SyncResult),
        [purchase45, recharge100][i]? = some x → rs2[i]? = some r →
        r.offlineId = x.offlineId) ∧
      (∀ r ∈ rs2, r.status = "skipped") ∧
      (postSyncTransactions (postSyncTransactions sampleStore 7 offlineBatch).1 8
        offlineBatch).1.transactions =
        (postSyncTransactions sampleStore 7 offlineBatch).1.transactions ∧
      (postSyncTransactions (postSyncTransactions sampleStore 7 offlineBatch).1 8
        offlineBatch).1.users =
        (postSyncTransactions sampleStore 7 offlineBatch).1.users :=
  postSyncTransactions_resubmit_skips sampleStore 7 8 offlineBatch [purchase45, recharge100]
    offlineBatchResults (by decide) (by decide) (by decide) (by decide)

/-- C7 (uniqueness of the idempotency key), evaluated on the handler: starting
from an empty ledger, two `POST /api/v1/transactions` calls that carry the key
`t1-200-def` leave two ledger entries with that key. -/
theorem postTransactions_duplicates_key :
    sampleStore.transactions = [] ∧
      (entriesWithKey (runTransactions sampleStore [(1, rechargeRequest), (2, rechargeRequest)])
        "t1-200-def").length = 2 := by
  decide

/-- The same key twice in one batch: both items are committed, because the
duplicate lookup reads the committed ledger and does not see the entry the
same batch has just written in its session. -/
theorem postSyncTransactions_same_key_in_batch :
    (postSyncTransactions sampleStore 7
        { terminalId := some "t1", transactions := some [purchase45, purchase45] }).2 =
      .synchronized
        [{ status := "success", offlineId := some "t1-100-abc", message := none,
           transaction := some { userId := 1, type := "purchase", amount := -45,
                                 item := some "espresso", balance := 455, terminalId := "t1",
                                 offlineId := some "t1-100-abc", timestamp := 100,
                                 synced := true } },
         { status := "success", offlineId := some "t1-100-abc", message := none,
           transaction := some { userId := 1, type := "purchase", amount := -45,
                                 item := some "espresso", balance := 410, terminalId := "t1",
                                 offlineId := some "t1-100-abc", timestamp := 100,
                                 synced := true } }] ∧
    (entriesWithKey (postSyncTransactions sampleStore 7
        { terminalId := some "t1", transactions := some [purchase45, purchase45] }).1
      "t1-100-abc").length = 2 := by
  decide

/-- C8 (per-item failure isolation), evaluated on the handler: the batch of the
valid purchase of 45 followed by an item whose `type` the schema rejects is
answered 500, no result is reported, the ledger stays empty and the credit of
account A stays 500; the valid purchase alone is answered 200 with `success`
and takes the credit to 455. -/
theorem postSyncTransactions_rejected_item_aborts_batch :
    (postSyncTransactions sampleStore 7
        { terminalId := some "t1", transactions := some [purchase45, refundItem] }).2 = .failed ∧
    (postSyncTransactions sampleStore 7
        { terminalId := some "t1", transactions := some [purchase45, refundItem] }).1.transactions
      = [] ∧
    creditOf (postSyncTransactions sampleStore 7
        { terminalId := some "t1", transactions := some [purchase45, refundItem] }).1 1 =
      some 500 ∧
    (postSyncTransactions sampleStore 7
        { terminalId := some "t1", transactions := some [purchase45] }).2 =
      .synchronized
        [{ status := "success", offlineId := some "t1-100-abc", message := none,
           transaction := some { userId := 1, type := "purchase", amount := -45,
                                 item := some "espresso", balance := 455, terminalId := "t1",
                                 offlineId := some "t1-100-abc", timestamp := 100,
                                 synced := true } }] ∧
    creditOf (postSyncTransactions sampleStore 7
        { terminalId := some "t1", transactions := some [purchase45] }).1 1 = some 455 := by
  decide

/-- C9 (one result per item, in order): for every batch that
`POST /api/v1/sync-transactions` answers with 200, the results list is as long
as the batch, its `i`-th element carries the `offlineId` of the `i`-th item,
and every status is `success`, `skipped` or `error`. -/
theorem postSyncTransactions_results (s : Store) (now : Nat) (req : SyncRequest)
    (items : List SyncItem) (results : List SyncResult)
    (hreq : req.transactions = some items)
    (h : (postSyncTransactions s now req).2 = .synchronized results) :
    results.length = items.length ∧
      (∀ (i : Nat) (x : SyncItem) (r : SyncResult), items[i]? = some x → results[i]? = some r →
        r.offlineId = x.offlineId) ∧
      ∀ r ∈ results, r.status = "success" ∨ r.status = "skipped" ∨ r.status = "error" := by
  have hpair : postSyncTransactions s now req =
      ((postSyncTransactions s now req).1, .synchronized results) := by rw [← h]
  obtain ⟨items1, ses, hit, hl, -, -⟩ := postSyncTransactions_synchronized hpair
  rw [hreq] at hit
  simp only [Option.some.injEq] at hit
  subst hit
  obtain ⟨hk, hst⟩ := syncLoop_results items hl
  refine ⟨?_, ?_, hst⟩
  · simpa using congrArg List.length hk
  · intro i x r hx hr
    have := congrArg (fun l => l[i]?) hk
    simp only [List.getElem?_map, hx, hr, Option.map_some', Option.some.injEq] at this
    exact this

/-- Witness for C9: a batch with a new item, an item of an unknown account and
an item whose key is already in the ledger. -/
theorem postSyncTransactions_results_witness :
    (postSyncTransactions firstApply.1 9 mixedBatch).2 = .synchronized mixedResults ∧
      mixedResults.length = [recharge100, strangerItem, purchase45].length ∧
      (∀ (i : Nat) (x : SyncItem) (r : SyncResult),
        [recharge100, strangerItem, purchase45][i]? = some x → mixedResults[i]? = some r →
        r.offlineId = x.offlineId) ∧
      ∀ r ∈ mixedResults, r.status = "success" ∨ r.status = "skipped" ∨ r.status = "error" :=
  ⟨by decide,
    postSyncTransactions_results firstApply.1 9 mixedBatch
      [recharge100, strangerItem, purchase45] mixedResults (by decide) (by decide)⟩

/-! ## Lemmas on the terminal registry -/

theorem touchTerminal_other (ts : List Terminal) (t : String) (now : Nat) (r : Terminal)
    (hr : r.terminalId ≠ t) : r ∈ touchTerminal ts t now ↔ r ∈ ts := by
  induction ts with
  | nil =>
    simp only [touchTerminal, List.mem_singleton, List.not_mem_nil, iff_false]
    intro h
    exact hr (by rw [h])
  | cons x xs ih =>
    simp only [touchTerminal]
    split
    · rename_i hx
      have hx' : x.terminalId = t := by simpa using hx
      simp only [List.mem_cons]
      constructor
      · rintro (h | h)
        · exact absurd (by rw [h]; exact hx') hr
        · exact Or.inr h
      · rintro (h | h)
        · exact absurd (by rw [h]; exact hx') hr
        · exact Or.inr h
    · simp only [List.mem_cons, ih]

theorem touchTerminal_known (ts : List Terminal) (t : String) (now : Nat)
    (huniq : (ts.map (fun r => r.terminalId)).Nodup) (old : Terminal) (hold : old ∈ ts)
    (ht : old.terminalId = t) :
    (touchTerminal ts t now).filter (fun r => r.terminalId == t) =
      [{ old with lastSeen := now }] := by
  induction ts with
  | nil => exact absurd hold (List.not_mem_nil _)
  | cons x xs ih =>
    simp only [List.map_cons, List.nodup_cons, List.mem_map, not_exists, not_and] at huniq
    obtain ⟨hx, hxs⟩ := huniq
    simp only [touchTerminal]
    by_cases hxt : x.terminalId = t
    · have hb : (x.terminalId == t) = true := by simpa using hxt
      simp only [hb, if_true]
      have hrest : xs.filter (fun r => r.terminalId == t) = [] := by
        rw [List.filter_eq_nil_iff]
        intro y hy
        have := hx y hy
        simp only [beq_iff_eq]
        intro hyt
        exact this (by rw [hyt, hxt])
      have hox : old = x := by
        rcases List.mem_cons.mp hold with h | h
        · exact h
        · exact absurd (by rw [ht, hxt]) (hx old h)
      subst hox
      simp [List.filter_cons, hxt, hrest]
    · have hb : (x.terminalId == t) = false := by simpa using hxt
      simp only [hb, Bool.false_eq_true, if_false]
      have hmem : old ∈ xs := by
        rcases List.mem_cons.mp hold with h | h
        · exact absurd (by rw [← h]; exact ht) hxt
        · exact h
      simp only [List.filter_cons, hb, Bool.false_eq_true, if_false]
      exact ih hxs hmem

theorem touchTerminal_unknown (ts : List Terminal) (t : String) (now : Nat)
    (hnew : ∀ r ∈ ts, r.terminalId ≠ t) :
    (touchTerminal ts t now).filter (fun r => r.terminalId == t) =
      [{ terminalId := t, description := none, lastSeen := now, status := "active" }] := by
  induction ts with
  | nil => simp [touchTerminal]
  | cons x xs ih =>
    have hxt : x.terminalId ≠ t := hnew x (List.mem_cons_self _ _)
    have hb : (x.terminalId == t) = false := by simpa using hxt
    simp only [touchTerminal, hb, Bool.false_eq_true, if_false, List.filter_cons]
    exact ih (fun r hr => hnew r (List.mem_cons_of_mem _ hr))

/-! ## Lemmas on `GET /api/v1/terminal/sync` -/

theorem getTerminalSync_ok (s : Store) (now : Nat) (tid : String) (lastSync : Option Nat)
    (htid : tid ≠ "") :
    getTerminalSync s now { terminalId := some tid, lastSync := lastSync } =
      ({ s with terminals := touchTerminal s.terminals tid now },
       .ok now
         (s.users.filter (fun u => changedAndActive lastSync u.updatedAt u.active))
         (s.coffeeOptions.filter (fun o => changedAndActive lastSync o.updatedAt o.active))
         (match lastSync with
          | some since => s.transactions.filter (fun t => decide (t.timestamp > since))
          | none => [])) := by
  have hb : (tid == "") = false := by simpa using htid
  simp only [getTerminalSync, hb, Bool.false_eq_true, if_false]

theorem getTerminalSync_response {s : Store} {now : Nat} {q : TerminalSyncQuery} {stamp : Nat}
    {users : List User} {options : List CoffeeOption} {txs : List Transaction}
    (h : (getTerminalSync s now q).2 = .ok stamp users options txs) :
    stamp = now ∧
      users = s.users.filter (fun u => changedAndActive q.lastSync u.updatedAt u.active) ∧
      options =
        s.coffeeOptions.filter (fun o => changedAndActive q.lastSync o.updatedAt o.active) ∧
      txs = (match q.lastSync with
             | some since => s.transactions.filter (fun t => decide (t.timestamp > since))
             | none => []) := by
  unfold getTerminalSync at h
  split at h
  · simp at h
  · split at h
    · simp at h
    · simp only [TerminalSyncResponse.ok.injEq] at h
      obtain ⟨h1, h2, h3, h4⟩ := h
      exact ⟨h1.symm, h2.symm, h3.symm, h4.symm⟩

/-! ## The claims, second part -/

/-- C11 (audit frame): one run of the consistency check leaves the ledger, the
terminals and the catalogue as they are, leaves every inactive user document
as it is, and changes no field of an active user document other than
`credit`. -/
theorem consistencyCheck_frame (s : Store) :
    (consistencyCheck s).transactions = s.transactions ∧
      (consistencyCheck s).terminals = s.terminals ∧
      (consistencyCheck s).coffeeOptions = s.coffeeOptions ∧
      List.Forall₂ (fun u v => v = { u with credit := v.credit } ∧ (u.active = false → v = u))
        s.users (consistencyCheck s).users := by
  refine ⟨rfl, rfl, rfl, ?_⟩
  simp only [consistencyCheck]
  rw [List.forall₂_map_right_iff, List.forall₂_same]
  intro u _
  split
  · rename_i ha
    split
    · exact ⟨rfl, fun h => absurd ha (by rw [h]; decide)⟩
    · exact ⟨rfl, fun _ => rfl⟩
  · exact ⟨rfl, fun _ => rfl⟩

/-- C12 (bootstrap pull): `GET /api/v1/terminal/sync` with a terminal id and no
`lastSync` answers with exactly the active users, exactly the active coffee
options and an empty transaction list. -/
theorem getTerminalSync_bootstrap (s : Store) (now : Nat) (tid : String) (htid : tid ≠ "") :
    (getTerminalSync s now { terminalId := some tid, lastSync := none }).2 =
      .ok now (s.users.filter (fun u => u.active)) (s.coffeeOptions.filter (fun o => o.active))
        [] := by
  rw [getTerminalSync_ok s now tid none htid]
  simp [changedAndActive]

/-- Witness for C12: the first pull of terminal `t1` on the sample store. -/
theorem getTerminalSync_bootstrap_witness :
    (getTerminalSync sampleStore 9 { terminalId := some "t1", lastSync := none }).2 =
      .ok 9 (sampleStore.users.filter (fun u => u.active))
        (sampleStore.coffeeOptions.filter (fun o => o.active)) [] ∧
    sampleStore.users.filter (fun u => u.active) = [root, alice, bob] ∧
    (sampleStore.coffeeOptions.filter (fun o => o.active)).map (fun o => o.name) =
      ["espresso"] :=
  ⟨getTerminalSync_bootstrap sampleStore 9 "t1" (by decide), by decide, by decide⟩

/-- C13 as stated fails: the account `dave` and the option `latte` were last
modified at 10 and 20, after the cursor 5, and are switched off; the pull with
`lastSync = 5` returns neither of them. -/
theorem getTerminalSync_omits_inactive :
    dave ∈ pullStore.users ∧ 5 < dave.updatedAt ∧
      (getTerminalSync pullStore 300 { terminalId := some "t1", lastSync := some 5 }).2 =
        .ok 300 [] [] pullStore.transactions := by
  decide

/-- C13 as amended: `GET /api/v1/terminal/sync` with `lastSync = T` answers with
exactly the active users and the active coffee options whose `updatedAt` is
strictly greater than `T`, and exactly the ledger entries whose `timestamp` is
strictly greater than `T`. -/
theorem getTerminalSync_incremental (s : Store) (now : Nat) (tid : String) (T : Nat)
    (htid : tid ≠ "") :
    ∃ users options txs,
      (getTerminalSync s now { terminalId := some tid, lastSync := some T }).2 =
        .ok now users options txs ∧
      (∀ u, u ∈ users ↔ u ∈ s.users ∧ T < u.updatedAt ∧ u.active = true) ∧
      (∀ o, o ∈ options ↔ o ∈ s.coffeeOptions ∧ T < o.updatedAt ∧ o.active = true) ∧
      (∀ t, t ∈ txs ↔ t ∈ s.transactions ∧ T < t.timestamp) := by
  refine ⟨_, _, _, by rw [getTerminalSync_ok s now tid (some T) htid], ?_, ?_, ?_⟩
  · intro u
    simp [changedAndActive, and_assoc]
  · intro o
    simp [changedAndActive, and_assoc]
  · intro t
    simp

/-- Witness for C13 as amended: the pull with `lastSync = 150` on the sample
store with two ledger entries returns the entry of time 200 only. -/
theorem getTerminalSync_incremental_witness :
    ∃ users options txs,
      (getTerminalSync pullStore 300 { terminalId := some "t1", lastSync := some 150 }).2 =
        .ok 300 users options txs ∧
      (∀ u, u ∈ users ↔ u ∈ pullStore.users ∧ 150 < u.updatedAt ∧ u.active = true) ∧
      (∀ o, o ∈ options ↔ o ∈ pullStore.coffeeOptions ∧ 150 < o.updatedAt ∧ o.active = true) ∧
      (∀ t, t ∈ txs ↔ t ∈ pullStore.transactions ∧ 150 < t.timestamp) :=
  getTerminalSync_incremental pullStore 300 "t1" 150 (by decide)

/-- C14 as stated fails: the entry of an offline purchase whose terminal clock
read 1000 is in the ledger at server time 400. The pull at server time 500
(`lastSync = 0`) returns it, and the next pull with `lastSync = 500` returns the
same, unmodified entry again. -/
theorem getTerminalSync_returns_entry_twice :
    aheadStore.transactions = [aheadEntry] ∧
      (getTerminalSync aheadStore 500 { terminalId := some "t2", lastSync := some 0 }).2 =
        .ok 500 [] [] [aheadEntry] ∧
      (getTerminalSync
          (getTerminalSync aheadStore 500 { terminalId := some "t2", lastSync := some 0 }).1
          600 { terminalId := some "t2", lastSync := some 500 }).2 =
        .ok 600 [] [] [aheadEntry] := by
  decide

/-- C14 as amended: let a first pull be answered at server time `S`, at a moment
when no `updatedAt` and no `timestamp` in the store is later than `S`, and let a
second pull with `lastSync = S` be answered on any later store. Then no ledger
entry of the first answer is in the second answer, and a user or a coffee
option of the first answer whose id is in the second answer has been modified
after `S`: its `updatedAt` was at most `S` and is now greater than `S`. -/
theorem getTerminalSync_monotonic (s s2 : Store) (S now2 : Nat) (q1 : TerminalSyncQuery)
    (tid2 : Option String) (us1 us2 : List User) (os1 os2 : List CoffeeOption)
    (ts1 ts2 : List Transaction)
    (h1 : (getTerminalSync s S q1).2 = .ok S us1 os1 ts1)
    (h2 : (getTerminalSync s2 now2 { terminalId := tid2, lastSync := some S }).2 =
      .ok now2 us2 os2 ts2)
    (hu : ∀ u ∈ s.users, u.updatedAt ≤ S) (ho : ∀ o ∈ s.coffeeOptions, o.updatedAt ≤ S)
    (ht : ∀ t ∈ s.transactions, t.timestamp ≤ S) :
    (∀ t ∈ ts1, t ∉ ts2) ∧
      (∀ u1 ∈ us1, ∀ u2 ∈ us2, u1.id = u2.id → u1.updatedAt ≤ S ∧ S < u2.updatedAt) ∧
      (∀ o1 ∈ os1, ∀ o2 ∈ os2, o1.id = o2.id → o1.updatedAt ≤ S ∧ S < o2.updatedAt) := by
  obtain ⟨-, hus1, hos1, hts1⟩ := getTerminalSync_response h1
  obtain ⟨-, hus2, hos2, hts2⟩ := getTerminalSync_response h2
  simp only at hts2
  subst hus1 hos1 hus2 hos2 hts2
  refine ⟨?_, ?_, ?_⟩
  · intro t h1t h2t
    have hin : t ∈ s.transactions := by
      rw [hts1] at h1t
      split at h1t
      · exact (List.mem_filter.mp h1t).1
      · exact absurd h1t (List.not_mem_nil _)
    have h3 := (List.mem_filter.mp h2t).2
    simp only [decide_eq_true_eq] at h3
    have := ht t hin
    omega
  · intro u1 hu1 u2 hu2 _
    have h3 := (List.mem_filter.mp hu2).2
    simp only [changedAndActive, Bool.and_eq_true, decide_eq_true_eq] at h3
    exact ⟨hu u1 (List.mem_filter.mp hu1).1, h3.1⟩
  · intro o1 ho1 o2 ho2 _
    have h3 := (List.mem_filter.mp ho2).2
    simp only [changedAndActive, Bool.and_eq_true, decide_eq_true_eq] at h3
    exact ⟨ho o1 (List.mem_filter.mp ho1).1, h3.1⟩

/-- Witness for C14 as amended: a pull at time 300 with `lastSync = 150`, a
recharge posted at time 350, a pull at time 400 with `lastSync = 300`. -/
theorem getTerminalSync_monotonic_witness :
    (∀ t ∈ [entry200], t ∉ [rechargeEntry]) ∧
      (∀ u1 ∈ ([] : List User), ∀ u2 ∈ ([] : List User), u1.id = u2.id →
        u1.updatedAt ≤ 300 ∧ 300 < u2.updatedAt) ∧
      (∀ o1 ∈ ([] : List CoffeeOption), ∀ o2 ∈ ([] : List CoffeeOption), o1.id = o2.id →
        o1.updatedAt ≤ 300 ∧ 300 < o2.updatedAt) :=
  getTerminalSync_monotonic pullStore (postTransactions pullStore 350 rechargeRequest).1 300 400
    { terminalId := some "t2", lastSync := some 150 } (some "t2") [] [] [] []
    [entry200] [rechargeEntry] (by decide) (by decide) (by decide) (by decide) (by decide)

/-- C15 (sync completeness), evaluated on the handlers: an offline purchase
recorded at terminal time 40 is pushed at server time 120 and written to the
empty ledger with `timestamp = 40`. The terminal that pulls with `lastSync = 50`
at server time 150 and again with `lastSync = 150` gets the entry in neither
answer. -/
theorem getTerminalSync_misses_pushed_entry :
    sampleStore.transactions = [] ∧ staleStore.transactions = [staleEntry] ∧
      (getTerminalSync staleStore 150 { terminalId := some "t2", lastSync := some 50 }).2 =
        .ok 150 [] [] [] ∧
      (getTerminalSync
          (getTerminalSync staleStore 150 { terminalId := some "t2", lastSync := some 50 }).1
          200 { terminalId := some "t2", lastSync := some 150 }).2 =
        .ok 200 [] [] [] := by
  decide

/-! ## Lemmas on rejected requests -/

theorem postTransactions_unknown (s : Store) (now : Nat) (req : TransactionRequest)
    (hu : findById s.users req.userId = none) :
    (postTransactions s now req).1 = s ∧
      ((postTransactions s now req).2 = .missingFields ∨
        (postTransactions s now req).2 = .userNotFound) := by
  unfold postTransactions
  split
  · exact ⟨rfl, Or.inl rfl⟩
  · simp [hu]

theorem syncItem_unknown (committed : List Transaction) (tid : Option String) (now : Nat)
    (ses : Session) (x : SyncItem) (hu : findById ses.users x.userId = none) :
    ∃ r, syncItem committed tid now ses x = some (ses, r) ∧ r.offlineId = x.offlineId ∧
      (r.status = "error" ∨ r.status = "skipped") ∧
      (findOneByOfflineId committed x.offlineId = none → r.status = "error") := by
  cases hk : findOneByOfflineId committed x.offlineId with
  | some e =>
    refine ⟨{ status := "skipped", offlineId := x.offlineId,
              message := some "Transaction already processed", transaction := none },
      ?_, rfl, Or.inr rfl, fun h => absurd h (by simp)⟩
    simp only [syncItem, hk]
  | none =>
    refine ⟨{ status := "error", offlineId := x.offlineId,
              message := some "User not found", transaction := none },
      ?_, rfl, Or.inl rfl, fun _ => rfl⟩
    simp only [syncItem, hk, hu]

theorem forall₂_getElem? {α β : Type} {R : α → β → Prop} :
    ∀ {l : List α} {l1 : List β}, List.Forall₂ R l l1 →
      ∀ (i : Nat) (a : α), l[i]? = some a → ∃ b, l1[i]? = some b ∧ R a b
  | _, _, List.Forall₂.nil, _, _, h => by simp at h
  | _, _, List.Forall₂.cons h1 t1, i, a, h => by
    cases i with
    | zero =>
      simp only [List.getElem?_cons_zero, Option.some.injEq] at h
      exact ⟨_, by simp, h ▸ h1⟩
    | succ j =>
      simp only [List.getElem?_cons_succ] at h
      obtain ⟨b, hb, hab⟩ := forall₂_getElem? t1 j a h
      exact ⟨b, by simpa using hb, hab⟩

/-- The loop of the batch route and an id that names no user: no entry is
written for the id, the id names no user afterwards, and every item with the id
has a result without an entry, `skipped` when the key of the item is in the
committed ledger and `error` otherwise. -/
theorem syncLoop_unknown {committed : List Transaction} {tid : Option String} {now : Nat}
    (uid : ObjectId) (items : List SyncItem) {ses ses2 : Session} {rs : List SyncResult}
    (h : syncLoop committed tid now ses items = some (ses2, rs))
    (hu : findById ses.users (some uid) = none) :
    (∃ added, ses2.transactions = ses.transactions ++ added ∧ ∀ t ∈ added, t.userId ≠ uid) ∧
      findById ses2.users (some uid) = none ∧
      List.Forall₂ (fun x r => x.userId = some uid →
        r.offlineId = x.offlineId ∧ r.transaction = none ∧
        ((findOneByOfflineId committed x.offlineId = none ∧ r.status = "error") ∨
          ((∃ e, findOneByOfflineId committed x.offlineId = some e) ∧ r.status = "skipped")))
        items rs := by
  induction items generalizing ses rs with
  | nil =>
    simp only [syncLoop, Option.some.injEq, Prod.mk.injEq] at h
    obtain ⟨h1, h2⟩ := h
    subst h1 h2
    exact ⟨⟨[], by simp, by simp⟩, hu, List.Forall₂.nil⟩
  | cons x rest ih =>
    obtain ⟨ses1, r, rs1, h1, h2, hrs⟩ := syncLoop_cons h
    subst hrs
    rcases syncItem_cases h1 with ⟨he, hs, hr⟩ | ⟨hk, -, hs, hr⟩ | ⟨user, t, -, hfound, ht, hs, hr⟩
    · subst hs hr
      obtain ⟨ih1, ih2, ih3⟩ := ih h2 hu
      exact ⟨ih1, ih2, List.Forall₂.cons (fun _ => ⟨rfl, rfl, Or.inr ⟨he, rfl⟩⟩) ih3⟩
    · subst hs hr
      obtain ⟨ih1, ih2, ih3⟩ := ih h2 hu
      exact ⟨ih1, ih2, List.Forall₂.cons (fun _ => ⟨rfl, rfl, Or.inl ⟨hk, rfl⟩⟩) ih3⟩
    · have hx : x.userId ≠ some uid := by
        intro e
        rw [e, hu] at hfound
        exact absurd hfound (by simp)
      have htu : t.userId ≠ uid := by
        intro e
        have := (newTransaction_fields ht).1
        rw [e] at this
        exact hx this
      have hu1 : findById ses1.users (some uid) = none := by
        rw [hs]
        exact (findById_none_congr (some uid) (saveCredit_map_id _ _ _ _)).mpr hu
      obtain ⟨⟨added, ih1, ih1'⟩, ih2, ih3⟩ := ih h2 hu1
      refine ⟨⟨t :: added, ?_, ?_⟩, ih2, List.Forall₂.cons (fun e => absurd e hx) ih3⟩
      · rw [ih1, hs]
        simp
      · intro t1 ht1
        rcases List.mem_cons.mp ht1 with e | e
        · rw [e]; exact htu
        · exact ih1' t1 e

/-- The three ways `POST /api/v1/sync-transactions` ends: 400 without a
`transactions` array, 500 when an item throws, 200 with the results of the
loop; only the last one changes users or ledger. -/
theorem postSyncTransactions_cases (s : Store) (now : Nat) (req : SyncRequest) :
    (req.transactions = none ∧ postSyncTransactions s now req = (s, .invalidData)) ∨
    (∃ items, req.transactions = some items ∧
        (postSyncTransactions s now req).2 = .failed ∧
        (postSyncTransactions s now req).1.users = s.users ∧
        (postSyncTransactions s now req).1.transactions = s.transactions) ∨
    (∃ items ses rs, req.transactions = some items ∧
        syncLoop s.transactions req.terminalId now
          { users := s.users, transactions := s.transactions } items = some (ses, rs) ∧
        (postSyncTransactions s now req).2 = .synchronized rs ∧
        (postSyncTransactions s now req).1.users = ses.users ∧
        (postSyncTransactions s now req).1.transactions = ses.transactions) := by
  cases hit : req.transactions with
  | none =>
    refine Or.inl ⟨rfl, ?_⟩
    simp only [postSyncTransactions, hit]
  | some items =>
    cases hl : syncLoop s.transactions req.terminalId now
        { users := s.users, transactions := s.transactions } items with
    | none =>
      refine Or.inr (Or.inl ⟨items, rfl, ?_⟩)
      simp only [postSyncTransactions, hit, hl, and_self]
    | some p =>
      obtain ⟨ses, rs⟩ := p
      exact Or.inr (Or.inr ⟨items, ses, rs, rfl, hl, postSyncTransactions_of_loop hit hl⟩)

/-- A batch with an item of an unknown account and an item the schema rejects
is answered 500: no result is reported for either item, and users and ledger
stay as they were. -/
theorem postSyncTransactions_unknown_item_in_aborted_batch :
    postSyncTransactions sampleStore 7
        { terminalId := some "t1", transactions := some [strangerItem, refundItem] } =
      ({ sampleStore with terminals := touchTerminal [] "t1" 7 }, .failed) := by
  decide

/-- C16 as stated fails: account B is switched off (`active = false`) and a
recharge of 10 for it is answered 201, written to the ledger and added to the
credit; sent as a one-item batch it is reported with status `success`. -/
theorem postTransactions_accepts_inactive_account :
    findById driftedStore.users (some 2) = some { bob with active := false } ∧
      (postTransactions driftedStore 300 bobRecharge).2 =
        .created { userId := 2, type := "recharge", amount := 10, item := none, balance := 40,
                   terminalId := "t1", offlineId := some "t1-700-vwx", timestamp := 300,
                   synced := true } ∧
      creditOf (postTransactions driftedStore 300 bobRecharge).1 2 = some 40 ∧
      (postTransactions driftedStore 300 bobRecharge).1.transactions.length =
        driftedStore.transactions.length + 1 ∧
      (postSyncTransactions driftedStore 300
          { terminalId := some "t1",
            transactions := some [{ userId := some 2, type := some "recharge",
                                    amount := some 10, item := none,
                                    offlineId := some "t1-700-vwx", date := 250 }] }).2 =
        .synchronized
          [{ status := "success", offlineId := some "t1-700-vwx", message := none,
             transaction := some { userId := 2, type := "recharge", amount := 10, item := none,
                                   balance := 40, terminalId := "t1",
                                   offlineId := some "t1-700-vwx", timestamp := 250,
                                   synced := true } }] := by
  decide

/-- C16 as amended: for every request with `type` and `amount` whose `userId`
names no user, `POST /api/v1/transactions` answers 404 `User not found` and
leaves the store as it is. For every batch sent to
`POST /api/v1/sync-transactions` while the id names no user: the ledger after
the call is the ledger before it followed by entries of other users only, and
the id still names no user; when the batch is answered 200, every item with
that id has, at its place in the results, a result with the key of the item and
no entry, whose status is `skipped` when the key was in the ledger before the
call and `error` otherwise; when the batch is not answered 200 it is answered
400 or 500 and leaves users and ledger as they were. The handlers do not read
`active`: a valid request for a switched-off account is committed like any
other, by `POST /api/v1/transactions` and as a one-item batch whose key is not
in the ledger. -/
theorem postTransactions_account_precondition (s : Store) (now : Nat)
    (req : TransactionRequest) (uid : ObjectId) (ty : String) (a : Int)
    (hid : req.userId = some uid) (hty : req.type = some ty) (hne : ty ≠ "")
    (ha : req.amount = some a) :
    (findById s.users (some uid) = none →
      postTransactions s now req = (s, .userNotFound)) ∧
    (findById s.users (some uid) = none → ∀ (now2 : Nat) (batch : SyncRequest),
      (∃ added, (postSyncTransactions s now2 batch).1.transactions = s.transactions ++ added ∧
        ∀ t ∈ added, t.userId ≠ uid) ∧
      findById (postSyncTransactions s now2 batch).1.users (some uid) = none ∧
      (∀ (items : List SyncItem) (results : List SyncResult),
        batch.transactions = some items →
        (postSyncTransactions s now2 batch).2 = .synchronized results →
        ∀ (i : Nat) (x : SyncItem), items[i]? = some x → x.userId = some uid →
          ∃ r, results[i]? = some r ∧ r.offlineId = x.offlineId ∧ r.transaction = none ∧
            ((findOneByOfflineId s.transactions x.offlineId = none ∧ r.status = "error") ∨
              ((∃ e, findOneByOfflineId s.transactions x.offlineId = some e) ∧
                r.status = "skipped"))) ∧
      ((∀ results, (postSyncTransactions s now2 batch).2 ≠ .synchronized results) →
        ((postSyncTransactions s now2 batch).2 = .invalidData ∨
          (postSyncTransactions s now2 batch).2 = .failed) ∧
        (postSyncTransactions s now2 batch).1.users = s.users ∧
        (postSyncTransactions s now2 batch).1.transactions = s.transactions)) ∧
    (∀ (user : User) (td : String), findById s.users (some uid) = some user →
      user.active = false → (ty = "recharge" ∨ ty = "purchase") →
      req.terminalId = some td → td ≠ "" →
      ∃ t, (postTransactions s now req).2 = .created t ∧ t.balance = user.credit + a ∧
        (postTransactions s now req).1.transactions = s.transactions ++ [t] ∧
        creditOf (postTransactions s now req).1 uid = some (user.credit + a)) ∧
    (∀ (user : User) (td : String) (x : SyncItem) (xty : String) (xa : Int),
      findById s.users (some uid) = some user → user.active = false →
      x.userId = some uid → x.type = some xty → (xty = "recharge" ∨ xty = "purchase") →
      x.amount = some xa → td ≠ "" → findOneByOfflineId s.transactions x.offlineId = none →
      ∃ t, (postSyncTransactions s now
              { terminalId := some td, transactions := some [x] }).2 =
            .synchronized [{ status := "success", offlineId := x.offlineId, message := none,
                             transaction := some t }] ∧
        t.balance = user.credit + xa ∧
        (postSyncTransactions s now
            { terminalId := some td, transactions := some [x] }).1.transactions =
          s.transactions ++ [t] ∧
        creditOf (postSyncTransactions s now
            { terminalId := some td, transactions := some [x] }).1 uid =
          some (user.credit + xa)) := by
  refine ⟨?_, ?_, ?_, ?_⟩
  rotate_left 3
  · intro user td x xty xa hu _ hxid hxty hxty' hxa htd hk
    obtain ⟨t, hstep, -, -, -, hbal⟩ :=
      syncItem_success_entry s.transactions td now
        { users := s.users, transactions := s.transactions } x user uid xty xa hk hu hxid hxty
        hxty' hxa htd
    have hl : syncLoop s.transactions (some td) now
        { users := s.users, transactions := s.transactions } [x] =
        some ({ users := saveCredit s.users uid (user.credit + xa) now
                transactions := s.transactions ++ [t] },
              [{ status := "success", offlineId := x.offlineId, message := none,
                 transaction := some t }]) := by
      simp only [syncLoop, hstep]
    have hreq : ({ terminalId := some td, transactions := some [x] } : SyncRequest).transactions =
        some [x] := rfl
    obtain ⟨h1, h2, h3⟩ := postSyncTransactions_of_loop hreq hl
    refine ⟨t, h1, hbal, h3, ?_⟩
    simp only [creditOf, h2, findById_saveCredit, hu, findById_id hu, Option.map_some',
      beq_self_eq_true, if_true]
  · intro hu
    have hb : (ty != "") = true := by simpa using hne
    simp only [postTransactions, hid, hty, ha, truthy, hu, hb, Option.isNone_some,
      Bool.not_true, Bool.or_self, Bool.false_eq_true, if_false]
  · intro hu now2 batch
    rcases postSyncTransactions_cases s now2 batch with ⟨-, h⟩ | ⟨items, -, h2, h3, h4⟩ |
      ⟨items, ses, rs, hit, hl, h2, h3, h4⟩
    · rw [h]
      exact ⟨⟨[], by simp, by simp⟩, hu, fun _ _ _ hr => absurd hr (by simp),
        fun _ => ⟨Or.inl rfl, rfl, rfl⟩⟩
    · rw [h2, h3, h4]
      exact ⟨⟨[], by simp, by simp⟩, hu, fun _ _ _ hr => absurd hr (by simp),
        fun _ => ⟨Or.inr rfl, rfl, rfl⟩⟩
    · obtain ⟨hadd, hus, hf⟩ := syncLoop_unknown uid items hl hu
      rw [h2, h3, h4]
      refine ⟨hadd, hus, ?_, fun hno => absurd rfl (hno rs)⟩
      intro items1 results hit1 hres i x hx hxu
      rw [hit] at hit1
      simp only [Option.some.injEq] at hit1
      subst hit1
      simp only [SyncResponse.synchronized.injEq] at hres
      subst hres
      obtain ⟨r, hr, hR⟩ := forall₂_getElem? hf i x hx
      obtain ⟨hk, ht, hst⟩ := hR hxu
      exact ⟨r, hr, hk, ht, hst⟩
  · intro user td hu _ hty' htd htd'
    rw [postTransactions_accepts s now req user uid ty a td hu hid hty hty' ha htd htd']
    exact ⟨_, rfl, rfl, rfl, creditOf_saveCredit s uid user _ now _ hu⟩

/-- Witness for C16 as amended: after the purchase of 45 was posted once, the
request for the unknown account 99 is answered 404, and in the batch of a new
item, an item of account 99 and an item whose key is in the ledger, the item of
account 99 has the second result, without an entry and with status `error`. -/
theorem postTransactions_account_precondition_witness :
    postTransactions firstApply.1 3 strangerRequest = (firstApply.1, .userNotFound) ∧
      ∃ r, mixedResults[1]? = some r ∧ r.offlineId = strangerItem.offlineId ∧
        r.transaction = none ∧
        ((findOneByOfflineId firstApply.1.transactions strangerItem.offlineId = none ∧
            r.status = "error") ∨
          ((∃ e, findOneByOfflineId firstApply.1.transactions strangerItem.offlineId = some e) ∧
            r.status = "skipped")) :=
  have h := postTransactions_account_precondition firstApply.1 3 strangerRequest 99 "purchase"
    (-45) (by decide) (by decide) (by decide) (by decide)
  ⟨h.1 (by decide),
    (h.2.1 (by decide) 9 mixedBatch).2.2.1 [recharge100, strangerItem, purchase45] mixedResults
      (by decide) (by decide) 1 strangerItem (by decide) (by decide)⟩

/-- C17 as stated fails: a request of type `recharge` with the amount -100 is
answered 201 and takes the credit of account A from 500 to 400. -/
theorem postTransactions_accepts_negative_recharge :
    (postTransactions sampleStore 1 negativeRecharge).2 =
      .created { userId := 1, type := "recharge", amount := -100, item := none, balance := 400,
                 terminalId := "t1", offlineId := some "t1-800-yza", timestamp := 1,
                 synced := true } ∧
      creditOf (postTransactions sampleStore 1 negativeRecharge).1 1 = some 400 := by
  decide

/-- C17 as amended: `POST /api/v1/transactions` does not compare the sign of
`amount` with `type`. Every schema-valid request for an existing account is
committed, also a recharge with `amount ≤ 0` and a purchase with `amount ≥ 0`:
the entry carries the amount as sent and the credit changes by it. -/
theorem postTransactions_ignores_sign (s : Store) (now : Nat) (req : TransactionRequest)
    (user : User) (uid : ObjectId) (ty : String) (a : Int) (td : String)
    (hu : findById s.users (some uid) = some user) (hid : req.userId = some uid)
    (hty : req.type = some ty) (ha : req.amount = some a)
    (htd : req.terminalId = some td) (htd' : td ≠ "")
    (hsign : (ty = "recharge" ∧ a ≤ 0) ∨ (ty = "purchase" ∧ 0 ≤ a)) :
    ∃ t, (postTransactions s now req).2 = .created t ∧ t.type = ty ∧ t.amount = a ∧
      t.balance = user.credit + a ∧
      (postTransactions s now req).1.transactions = s.transactions ++ [t] ∧
      creditOf (postTransactions s now req).1 uid = some (user.credit + a) := by
  have hty' : ty = "recharge" ∨ ty = "purchase" := by
    rcases hsign with h | h
    · exact Or.inl h.1
    · exact Or.inr h.1
  rw [postTransactions_accepts s now req user uid ty a td hu hid hty hty' ha htd htd']
  exact ⟨_, rfl, rfl, rfl, rfl, rfl, creditOf_saveCredit s uid user _ now _ hu⟩

/-- Witness for C17 as amended: the recharge of -100 for account A. -/
theorem postTransactions_ignores_sign_witness :
    ∃ t, (postTransactions sampleStore 1 negativeRecharge).2 = .created t ∧
      t.type = "recharge" ∧ t.amount = -100 ∧ t.balance = alice.credit + (-100) ∧
      (postTransactions sampleStore 1 negativeRecharge).1.transactions =
        sampleStore.transactions ++ [t] ∧
      creditOf (postTransactions sampleStore 1 negativeRecharge).1 1 =
        some (alice.credit + (-100)) :=
  postTransactions_ignores_sign sampleStore 1 negativeRecharge alice 1 "recharge" (-100) "t1"
    (by decide) (by decide) (by decide) (by decide) (by decide) (by decide) (by decide)

/-- Without a throwing call the handler with fault points is `postTransactions`. -/
theorem postTransactionsUnder_none (s : Store) (now : Nat) (req : TransactionRequest) :
    postTransactionsUnder none s now req =
      ((postTransactions s now req).1, some (postTransactions s now req).2) := by
  unfold postTransactionsUnder postTransactions
  split
  · rfl
  · split
    · rfl
    · dsimp only
      split <;> rfl

/-- Whichever call throws, a request that is not answered 201 leaves the store
as it was: the store changes only together with the answer 201, and then by
the one entry of the answer. -/
theorem postTransactionsUnder_rollback (fault : Option Fault) (s : Store) (now : Nat)
    (req : TransactionRequest) :
    (∃ t, (postTransactionsUnder fault s now req).2 = some (.created t) ∧
        (postTransactionsUnder fault s now req).1.transactions = s.transactions ++ [t]) ∨
      (postTransactionsUnder fault s now req).1 = s := by
  unfold postTransactionsUnder
  split
  · exact Or.inr rfl
  · split
    · exact Or.inr rfl
    · dsimp only
      split
      · exact Or.inr rfl
      · split
        · exact Or.inr rfl
        · exact Or.inr rfl
        · exact Or.inl ⟨_, rfl, rfl⟩

/-- When `transaction.save`, `user.save` or `redisClient.del` throws, or no call
throws, the request is answered: with 201, 400, 404 or 500. -/
theorem postTransactionsUnder_answered (fault : Option Fault) (s : Store) (now : Nat)
    (req : TransactionRequest) (hf : fault ≠ some .commitTransaction) :
    ∃ r, (postTransactionsUnder fault s now req).2 = some r := by
  unfold postTransactionsUnder
  split
  · exact ⟨_, rfl⟩
  · split
    · exact ⟨_, rfl⟩
    · dsimp only
      split
      · exact ⟨_, rfl⟩
      · split
        · exact absurd rfl hf
        · exact ⟨_, rfl⟩
        · exact ⟨_, rfl⟩

/-- C18 (atomicity of a rejected apply), evaluated on the handler: the purchase
of 45 by account A is staged and `commitTransaction` throws. The store is the
store before the call, and the request gets no response: it is neither
committed (201) nor rejected (400, 404 or 500). When `user.save` throws instead
the request is answered 500, and when no call throws it is answered 201. -/
theorem postTransactionsUnder_failed_commit_is_not_answered :
    postTransactionsUnder (some .commitTransaction) sampleStore 1 purchaseRequest =
        (sampleStore, none) ∧
      postTransactionsUnder (some .userSave) sampleStore 1 purchaseRequest =
        (sampleStore, some .failed) ∧
      (postTransactionsUnder none sampleStore 1 purchaseRequest).2 =
        some (.created { userId := 1, type := "purchase", amount := -45,
                         item := some "espresso", balance := 455, terminalId := "t1",
                         offlineId := some "t1-100-abc", timestamp := 1, synced := true }) := by
  decide

/-! ## Lemmas on the handlers that touch a terminal -/

theorem postSyncTransactions_terminals (s : Store) (now : Nat) (t : String)
    (items : List SyncItem) (ht : t ≠ "") :
    (postSyncTransactions s now { terminalId := some t, transactions := some items }).1.terminals
      = touchTerminal s.terminals t now := by
  have hb : (t != "") = true := by simpa using ht
  simp only [postSyncTransactions, hb, if_true]
  split <;> rfl

theorem postVerifyRfid_terminals (s : Store) (now : Nat) (t rfid : String)
    (ht : t ≠ "") (hrfid : rfid ≠ "") :
    (postVerifyRfid s now { rfid := some rfid, terminalId := some t }).1.terminals =
      touchTerminal s.terminals t now := by
  have hb : (t != "") = true := by simpa using ht
  have hr : (rfid == "") = false := by simpa using hrfid
  simp only [postVerifyRfid, hb, hr, if_true, Bool.false_eq_true, if_false]
  split <;> rfl

theorem sortByTimestampDesc_sorted (txs : List Transaction) :
    (sortByTimestampDesc txs).Sorted (fun a b => b.timestamp ≤ a.timestamp) := by
  haveI : IsTotal Transaction (fun a b => b.timestamp ≤ a.timestamp) :=
    ⟨fun a b => Nat.le_total _ _⟩
  haveI : IsTrans Transaction (fun a b => b.timestamp ≤ a.timestamp) :=
    ⟨fun _ _ _ h1 h2 => Nat.le_trans h2 h1⟩
  exact List.sorted_insertionSort _ txs

/-- C19 as stated fails: terminal `t1` is known with status `maintenance`; after
a pull by `t1` at time 300 its record has `lastSeen = 300` and still the status
`maintenance`. -/
theorem touched_terminal_keeps_status :
    (getTerminalSync pullStore 300 { terminalId := some "t1", lastSync := none }).1.terminals =
      [{ terminalId := "t1", description := some "hall", lastSeen := 300,
         status := "maintenance" },
       { terminalId := "t2", description := none, lastSeen := 2, status := "active" }] := by
  decide

/-- C19 as amended: for every registry with one record per terminal id at most
and every non-empty terminal id `t`, after `GET /api/v1/terminal/sync`,
`POST /api/v1/sync-transactions` (with a transactions array) or
`POST /api/v1/verify-rfid` (with a card) called with `t` the registry holds
exactly one record for `t`, with `lastSeen` equal to the time of the call; its
status is `active` when `t` was unknown before and is the status it had when
`t` was known; every record of another terminal is unchanged. -/
theorem handlers_touch_terminal (s : Store) (now : Nat) (t : String) (lastSync : Option Nat)
    (items : List SyncItem) (rfid : String) (ts1 : List Terminal)
    (ht : t ≠ "") (hrfid : rfid ≠ "")
    (huniq : (s.terminals.map (fun r => r.terminalId)).Nodup)
    (hts : ts1 = (getTerminalSync s now
              { terminalId := some t, lastSync := lastSync }).1.terminals ∨
      ts1 = (postSyncTransactions s now
              { terminalId := some t, transactions := some items }).1.terminals ∨
      ts1 = (postVerifyRfid s now { rfid := some rfid, terminalId := some t }).1.terminals) :
    (∃ r, ts1.filter (fun x => x.terminalId == t) = [r] ∧ r.lastSeen = now ∧
        ((∀ old ∈ s.terminals, old.terminalId ≠ t) →
          r.status = "active" ∧ r.description = none) ∧
        (∀ old ∈ s.terminals, old.terminalId = t →
          r.status = old.status ∧ r.description = old.description)) ∧
      (∀ r : Terminal, r.terminalId ≠ t → (r ∈ ts1 ↔ r ∈ s.terminals)) := by
  have hall : ts1 = touchTerminal s.terminals t now := by
    rcases hts with h | h | h
    · rw [h, getTerminalSync_ok s now t lastSync ht]
    · rw [h, postSyncTransactions_terminals s now t items ht]
    · rw [h, postVerifyRfid_terminals s now t rfid ht hrfid]
  subst hall
  refine ⟨?_, fun r hr => touchTerminal_other s.terminals t now r hr⟩
  by_cases hex : ∃ old ∈ s.terminals, old.terminalId = t
  · obtain ⟨old, hold, hot⟩ := hex
    refine ⟨{ old with lastSeen := now },
      touchTerminal_known s.terminals t now huniq old hold hot, rfl, ?_, ?_⟩
    · intro hnone
      exact absurd hot (hnone old hold)
    · intro old2 hold2 hot2
      have h1 := touchTerminal_known s.terminals t now huniq old hold hot
      have h2 := touchTerminal_known s.terminals t now huniq old2 hold2 hot2
      rw [h1] at h2
      simp only [List.cons.injEq, and_true, Terminal.mk.injEq, true_and] at h2
      obtain ⟨-, hd, hs⟩ := h2
      exact ⟨hs, hd⟩
  · have hnone : ∀ r ∈ s.terminals, r.terminalId ≠ t := fun r hr e => hex ⟨r, hr, e⟩
    refine ⟨_, touchTerminal_unknown s.terminals t now hnone, rfl, fun _ => ⟨rfl, rfl⟩, ?_⟩
    intro old hold hot
    exact absurd hot (hnone old hold)

/-- Witness for C19 as amended: terminal `t1` (known, status `maintenance`)
pulls at time 300. -/
theorem handlers_touch_terminal_witness :
    (∃ r, (getTerminalSync pullStore 300
            { terminalId := some "t1", lastSync := none }).1.terminals.filter
          (fun x => x.terminalId == "t1") = [r] ∧ r.lastSeen = 300 ∧
        ((∀ old ∈ pullStore.terminals, old.terminalId ≠ "t1") →
          r.status = "active" ∧ r.description = none) ∧
        (∀ old ∈ pullStore.terminals, old.terminalId = "t1" →
          r.status = old.status ∧ r.description = old.description)) ∧
      (∀ r : Terminal, r.terminalId ≠ "t1" →
        (r ∈ (getTerminalSync pullStore 300
            { terminalId := some "t1", lastSync := none }).1.terminals ↔
          r ∈ pullStore.terminals)) :=
  handlers_touch_terminal pullStore 300 "t1" none [] "rfid-1" _ (by decide) (by decide)
    (by decide) (Or.inl rfl)

/-- C20 (history paging): for every ledger, user id, `limit > 0` and `offset`,
`GET /api/v1/users/:userId/transactions` answers with the ledger entries of
that user in descending order of `timestamp`, without the first `offset` of
them and cut to `limit` entries at most, with `total` the number of all ledger
entries of that user and `hasMore` true exactly when
`offset + (number of returned entries) < total`; the store is left as it is. -/
theorem getUserTransactions_paging (s : Store) (uid : ObjectId) (limit offset : Nat)
    (hl : 0 < limit) :
    ∃ sorted : List Transaction,
      sorted.Perm (s.transactions.filter (fun t => t.userId == uid)) ∧
      sorted.Sorted (fun a b => b.timestamp ≤ a.timestamp) ∧
      (getUserTransactions s uid (some limit) (some offset)).2.transactions =
        (sorted.drop offset).take limit ∧
      (getUserTransactions s uid (some limit) (some offset)).2.total =
        (s.transactions.filter (fun t => t.userId == uid)).length ∧
      ((getUserTransactions s uid (some limit) (some offset)).2.hasMore = true ↔
        offset + (getUserTransactions s uid (some limit) (some offset)).2.transactions.length <
          (getUserTransactions s uid (some limit) (some offset)).2.total) ∧
      (getUserTransactions s uid (some limit) (some offset)).1 = s := by
  refine ⟨sortByTimestampDesc (findByUserId s.transactions uid),
    List.perm_insertionSort _ _, sortByTimestampDesc_sorted _, ?_, rfl, ?_, rfl⟩
  · have hne : limit ≠ 0 := by omega
    simp only [getUserTransactions, limitTo, Option.getD_some, hne, if_false]
  · simp only [getUserTransactions, Option.getD_some, decide_eq_true_eq, gt_iff_lt]

/-- Witness for C20: the first page of size 1 of account A, which has two
ledger entries; the newer one is returned and there is more. -/
theorem getUserTransactions_paging_witness :
    (∃ sorted : List Transaction,
      sorted.Perm (driftedStore.transactions.filter (fun t => t.userId == 1)) ∧
      sorted.Sorted (fun a b => b.timestamp ≤ a.timestamp) ∧
      (getUserTransactions driftedStore 1 (some 1) (some 0)).2.transactions =
        (sorted.drop 0).take 1 ∧
      (getUserTransactions driftedStore 1 (some 1) (some 0)).2.total =
        (driftedStore.transactions.filter (fun t => t.userId == 1)).length ∧
      ((getUserTransactions driftedStore 1 (some 1) (some 0)).2.hasMore = true ↔
        0 + (getUserTransactions driftedStore 1 (some 1) (some 0)).2.transactions.length <
          (getUserTransactions driftedStore 1 (some 1) (some 0)).2.total) ∧
      (getUserTransactions driftedStore 1 (some 1) (some 0)).1 = driftedStore) ∧
    (getUserTransactions driftedStore 1 (some 1) (some 0)).2 =
      { transactions := [entry200], total := 2, hasMore := true } :=
  ⟨getUserTransactions_paging driftedStore 1 1 0 (by decide), by decide⟩

/-! ## The claims, third part -/

/-- C21 (VerifyIdentity): for every store and every non-empty card identifier
`r`, `POST /api/v1/verify-rfid` answers with a user of the store whose `rfid`
is `r` and who is active (with the new `lastActivity`) when there is one, and
with 404 `User not found` otherwise; in every case, also without a card
identifier, the ledger is the one before the call and every user document is
the one before the call except for `lastActivity`, so no credit changes. -/
theorem postVerifyRfid_readonly (s : Store) (now : Nat) (r : String)
    (terminalId : Option String) (hr : r ≠ "") :
    ((∃ u ∈ s.users, u.rfid = r ∧ u.active = true) →
        ∃ u ∈ s.users, u.rfid = r ∧ u.active = true ∧
          (postVerifyRfid s now { rfid := some r, terminalId := terminalId }).2 =
            .ok { u with lastActivity := some now }) ∧
      ((¬ ∃ u ∈ s.users, u.rfid = r ∧ u.active = true) →
        (postVerifyRfid s now { rfid := some r, terminalId := terminalId }).2 =
          .userNotFound) ∧
      (∀ req : VerifyRequest,
        (postVerifyRfid s now req).1.transactions = s.transactions ∧
        List.Forall₂ (fun u v => v = { u with lastActivity := v.lastActivity })
          s.users (postVerifyRfid s now req).1.users ∧
        (postVerifyRfid s now req).1.users.map (fun u => u.credit) =
          s.users.map (fun u => u.credit)) := by
  have hb : (r == "") = false := by simpa using hr
  refine ⟨?_, ?_, ?_⟩
  · intro hex
    cases hf : s.users.find? (fun u => u.rfid == r && u.active) with
    | none =>
      rw [List.find?_eq_none] at hf
      obtain ⟨u, hu, h1, h2⟩ := hex
      exact absurd (by simp [h1, h2]) (hf u hu)
    | some u =>
      have h1 := List.find?_some hf
      simp only [Bool.and_eq_true, beq_iff_eq] at h1
      refine ⟨u, List.mem_of_find?_eq_some hf, h1.1, h1.2, ?_⟩
      simp only [postVerifyRfid, hb, Bool.false_eq_true, if_false, hf]
  · intro hno
    have hf : s.users.find? (fun u => u.rfid == r && u.active) = none := by
      rw [List.find?_eq_none]
      intro u hu hc
      simp only [Bool.and_eq_true, beq_iff_eq] at hc
      exact hno ⟨u, hu, hc.1, hc.2⟩
    simp only [postVerifyRfid, hb, Bool.false_eq_true, if_false, hf]
  · intro req
    have hsame : List.Forall₂ (fun u v : User => v = { u with lastActivity := v.lastActivity })
        s.users s.users := by
      rw [List.forall₂_same]
      intro u _
      rfl
    unfold postVerifyRfid
    split
    · exact ⟨rfl, hsame, rfl⟩
    · split
      · exact ⟨rfl, hsame, rfl⟩
      · dsimp only
        split
        · exact ⟨rfl, hsame, rfl⟩
        · refine ⟨rfl, ?_, ?_⟩
          · rw [List.forall₂_map_right_iff, List.forall₂_same]
            intro u _
            split <;> rfl
          · rw [List.map_map]
            apply List.map_congr_left
            intro u _
            simp only [Function.comp]
            split <;> rfl

/-- Witness for C21: the card of account A is verified at terminal `t1`. -/
theorem postVerifyRfid_readonly_witness :
    ∃ u ∈ sampleStore.users, u.rfid = "rfid-1" ∧ u.active = true ∧
      (postVerifyRfid sampleStore 9 { rfid := some "rfid-1", terminalId := some "t1" }).2 =
        .ok { u with lastActivity := some 9 } :=
  (postVerifyRfid_readonly sampleStore 9 "rfid-1" (some "t1") (by decide)).1
    ⟨alice, by decide, by decide, by decide⟩

/-- C22 as stated fails: the purchase of 45, recorded offline at terminal time
100, is applied at server time 7. Sent as a one-item batch it leaves an entry
with `timestamp = 100` and a record for terminal `t1`; sent to
`POST /api/v1/transactions` it leaves an entry with `timestamp = 7` and no
terminal record, so the two stores differ. -/
theorem batch_entry_carries_terminal_time :
    (postSyncTransactions sampleStore 7
        { terminalId := some "t1", transactions := some [purchase45] }).1.transactions.map
      (fun t => t.timestamp) = [100] ∧
    (postTransactions sampleStore 7 (purchase45.toRequest (some "t1"))).1.transactions.map
      (fun t => t.timestamp) = [7] ∧
    (postSyncTransactions sampleStore 7
        { terminalId := some "t1", transactions := some [purchase45] }).1.terminals ≠
      (postTransactions sampleStore 7 (purchase45.toRequest (some "t1"))).1.terminals ∧
    (postSyncTransactions sampleStore 7
        { terminalId := some "t1", transactions := some [purchase45] }).1 ≠
      (postTransactions sampleStore 7 (purchase45.toRequest (some "t1"))).1 := by
  decide

theorem newTransaction_timestamp (userId : Option ObjectId) (type : Option String)
    (amount : Option Int) (item : Option String) (balance : Int) (terminalId : Option String)
    (offlineId : Option String) (ts1 ts2 : Nat) :
    newTransaction userId type amount item balance terminalId offlineId ts2 =
      (newTransaction userId type amount item balance terminalId offlineId ts1).map
        (fun t => { t with timestamp := ts2 }) := by
  unfold newTransaction
  split
  · split <;> rfl
  · rfl

theorem postSyncTransactions_single (s : Store) (now : Nat) (x : SyncItem)
    (tid : Option String) (ses : Session) (r : SyncResult)
    (h : syncItem s.transactions tid now { users := s.users, transactions := s.transactions } x =
      some (ses, r)) :
    (postSyncTransactions s now { terminalId := tid, transactions := some [x] }).2 =
        .synchronized [r] ∧
      (postSyncTransactions s now { terminalId := tid, transactions := some [x] }).1.users =
        ses.users ∧
      (postSyncTransactions s now { terminalId := tid, transactions := some [x] }).1.transactions
        = ses.transactions := by
  have hl : syncLoop s.transactions tid now { users := s.users, transactions := s.transactions }
      [x] = some (ses, [r]) := by
    simp only [syncLoop, h]
  have hreq : ({ terminalId := tid, transactions := some [x] } : SyncRequest).transactions =
      some [x] := rfl
  exact postSyncTransactions_of_loop hreq hl

theorem postSyncTransactions_single_failed (s : Store) (now : Nat) (x : SyncItem)
    (tid : Option String)
    (h : syncItem s.transactions tid now { users := s.users, transactions := s.transactions } x =
      none) :
    (postSyncTransactions s now { terminalId := tid, transactions := some [x] }).2 = .failed ∧
      (postSyncTransactions s now { terminalId := tid, transactions := some [x] }).1.users =
        s.users ∧
      (postSyncTransactions s now { terminalId := tid, transactions := some [x] }).1.transactions
        = s.transactions := by
  simp only [postSyncTransactions, syncLoop, h, and_self]

/-- C22 as amended: for every store and every item `x` whose key is not in the
ledger, `POST /api/v1/sync-transactions` with the batch `[x]` and
`POST /api/v1/transactions` with the fields of `x`, run at the same server
time, leave the same users and the same catalogue; either both leave the
ledger as it is, or both append one entry, and the two entries agree in every
field except `timestamp`, which is the server time for the direct request and
the `date` of the item for the batch. The direct request leaves the terminal
registry as it is. -/
theorem batch_of_one_matches_apply (s : Store) (now : Nat) (x : SyncItem)
    (tid : Option String) (hk : findOneByOfflineId s.transactions x.offlineId = none) :
    (postSyncTransactions s now { terminalId := tid, transactions := some [x] }).1.users =
        (postTransactions s now (x.toRequest tid)).1.users ∧
      (postSyncTransactions s now { terminalId := tid, transactions := some [x] }).1.coffeeOptions
        = (postTransactions s now (x.toRequest tid)).1.coffeeOptions ∧
      (postTransactions s now (x.toRequest tid)).1.terminals = s.terminals ∧
      (((postTransactions s now (x.toRequest tid)).1.transactions = s.transactions ∧
          (postSyncTransactions s now
            { terminalId := tid, transactions := some [x] }).1.transactions = s.transactions) ∨
        ∃ t, (postTransactions s now (x.toRequest tid)).2 = .created t ∧ t.timestamp = now ∧
          (postTransactions s now (x.toRequest tid)).1.transactions = s.transactions ++ [t] ∧
          (postSyncTransactions s now
            { terminalId := tid, transactions := some [x] }).1.transactions =
            s.transactions ++ [{ t with timestamp := x.date }]) := by
  have hopt : (postSyncTransactions s now
      { terminalId := tid, transactions := some [x] }).1.coffeeOptions = s.coffeeOptions := by
    simp only [postSyncTransactions]
    split <;> rfl
  rcases postTransactions_cases s now (x.toRequest tid) with ⟨hs, -⟩ | ⟨user, t, hu, ht, hp⟩
  · -- the direct request is rejected
    rw [hs]
    refine ⟨?_, hopt, rfl, Or.inl ⟨rfl, ?_⟩⟩
    all_goals
      cases hi : syncItem s.transactions tid now
          { users := s.users, transactions := s.transactions } x with
      | none =>
        obtain ⟨-, h2, h3⟩ := postSyncTransactions_single_failed s now x tid hi
        first | exact h2 | exact h3
      | some pr =>
        obtain ⟨ses, r⟩ := pr
        obtain ⟨-, h2, h3⟩ := postSyncTransactions_single s now x tid ses r hi
        rcases syncItem_cases hi with ⟨⟨e, he⟩, -, -⟩ | ⟨-, -, hses, -⟩ | ⟨user, t, -, hu, ht, -, -⟩
        · rw [hk] at he
          exact absurd he (by simp)
        · subst hses
          first | exact h2 | exact h3
        · exfalso
          have htn := newTransaction_timestamp x.userId x.type x.amount x.item
            (user.credit + x.amount.getD 0) tid x.offlineId x.date now
          rw [ht] at htn
          obtain ⟨-, hty, ha, -, -, -, -, -, hen, -⟩ := newTransaction_fields ht
          have hne : t.type ≠ "" := by
            rcases hen with h | h <;> rw [h] <;> decide
          have hb : (t.type != "") = true := by simpa using hne
          have hid := (newTransaction_fields ht).1
          have hcr : (postTransactions s now (x.toRequest tid)).1.transactions =
              s.transactions ++ [{ t with timestamp := now }] := by
            simp only [postTransactions, SyncItem.toRequest, hid, hty, ha, truthy, hb,
              Option.isNone_some, Bool.not_true, Bool.or_self, Bool.false_eq_true, if_false]
            simp only [Session.mk.injEq] at hu
            rw [hid] at hu
            simp only [hu]
            rw [ha, hid, hty] at htn
            simp only [Option.getD_some] at htn ⊢
            rw [htn]
            rfl
          rw [hs] at hcr
          have := congrArg List.length hcr
          simp at this
  · -- the direct request is committed
    obtain ⟨hf1, hf2, hf3, -, -, -, -, hf8, -, -⟩ := newTransaction_fields ht
    have hts := newTransaction_timestamp (x.toRequest tid).userId (x.toRequest tid).type
      (x.toRequest tid).amount (x.toRequest tid).item
      (user.credit + (x.toRequest tid).amount.getD 0) (x.toRequest tid).terminalId
      (x.toRequest tid).offlineId now x.date
    rw [ht] at hts
    simp only [Option.map_some'] at hts
    have hi : syncItem s.transactions tid now
        { users := s.users, transactions := s.transactions } x =
        some ({ users := saveCredit s.users user.id (user.credit + x.amount.getD 0) now
                transactions := s.transactions ++ [{ t with timestamp := x.date }] },
              { status := "success", offlineId := x.offlineId, message := none,
                transaction := some { t with timestamp := x.date } }) := by
      simp only [SyncItem.toRequest] at hu hts
      simp only [syncItem, hk, hu, hts]
    obtain ⟨-, h2, h3⟩ := postSyncTransactions_single s now x tid _ _ hi
    rw [hp]
    refine ⟨?_, hopt, rfl, Or.inr ⟨t, rfl, hf8, rfl, ?_⟩⟩
    · rw [h2]; rfl
    · rw [h3]

/-- Witness for C22 as amended: the purchase of 45 at server time 7. -/
theorem batch_of_one_matches_apply_witness :
    (postSyncTransactions sampleStore 7
        { terminalId := some "t1", transactions := some [purchase45] }).1.users =
      (postTransactions sampleStore 7 (purchase45.toRequest (some "t1"))).1.users :=
  (batch_of_one_matches_apply sampleStore 7 purchase45 (some "t1") (by decide)).1

/-! ## The claims on pulled balances and on the consistency check -/

/-- C24 (balance changes reach other terminals), evaluated on the handlers:
account A is active and has `updatedAt = 0`. A purchase of 45 is committed at
server time 100, directly or as a batch, and takes the credit to 455. The pull
with `lastSync = 50` made afterwards returns the new ledger entry and an empty
list of users. -/
theorem getTerminalSync_omits_changed_balance :
    alice.active = true ∧
      creditOf (postTransactions sampleStore 100 purchaseRequest).1 1 = some 455 ∧
      (getTerminalSync (postTransactions sampleStore 100 purchaseRequest).1 150
          { terminalId := some "t2", lastSync := some 50 }).2 =
        .ok 150 [] []
          [{ userId := 1, type := "purchase", amount := -45, item := some "espresso",
             balance := 455, terminalId := "t1", offlineId := some "t1-100-abc",
             timestamp := 100, synced := true }] ∧
      creditOf (postSyncTransactions sampleStore 100
          { terminalId := some "t1", transactions := some [purchase45] }).1 1 = some 455 ∧
      (getTerminalSync (postSyncTransactions sampleStore 100
            { terminalId := some "t1", transactions := some [purchase45] }).1 150
          { terminalId := some "t2", lastSync := some 50 }).2 =
        .ok 150 [] []
          [{ userId := 1, type := "purchase", amount := -45, item := some "espresso",
             balance := 455, terminalId := "t1", offlineId := some "t1-100-abc",
             timestamp := 100, synced := true }] := by
  decide

/-- C25 (audit threshold with whole amounts): the test of the consistency check
is true exactly when the credit differs from the expected credit; the run
leaves an active user whose credit equals the sum of the user's ledger amounts
as it is, and gives every other active user that sum as credit. -/
theorem consistencyCheck_threshold :
    (∀ c e : Int, inconsistent c e = true ↔ c ≠ e) ∧
      ∀ s : Store,
        List.Forall₂ (fun u v => u.active = true →
            (inconsistent u.credit (expectedCredit s.transactions u.id) = true ↔
              u.credit ≠ ledgerSum s u.id) ∧
            (u.credit = ledgerSum s u.id → v = u) ∧
            (u.credit ≠ ledgerSum s u.id → v = { u with credit := ledgerSum s u.id }))
          s.users (consistencyCheck s).users := by
  refine ⟨inconsistent_iff, fun s => ?_⟩
  rw [consistencyCheck_users, List.forall₂_map_right_iff, List.forall₂_same]
  intro u _ ha
  have hl : ledgerSum s u.id = expectedCredit s.transactions u.id := by
    rw [expectedCredit_eq_sum]; rfl
  rw [hl, if_pos ha]
  refine ⟨inconsistent_iff _ _, fun h => ?_, fun _ => rfl⟩
  rw [← h]

/-- On a store of whole credits and amounts, one run of the consistency check
gives every active user without ledger entries the credit 0; and for two
stores with the same ledger whose user documents differ in `credit` at most,
the active user documents after the run are the same. -/
theorem consistencyCheck_forgets_credit (s s2 : Store)
    (htx : s2.transactions = s.transactions)
    (hus : s2.users.map (fun u => { u with credit := 0 }) =
      s.users.map (fun u => { u with credit := 0 })) :
    List.Forall₂ (fun u v => u.active = true → (∀ t ∈ s.transactions, t.userId ≠ u.id) →
        v = { u with credit := 0 }) s.users (consistencyCheck s).users ∧
      (consistencyCheck s2).users.filter (fun u => u.active) =
        (consistencyCheck s).users.filter (fun u => u.active) := by
  constructor
  · rw [consistencyCheck_users, List.forall₂_map_right_iff, List.forall₂_same]
    intro u _ ha hnone
    have h0 : expectedCredit s.transactions u.id = 0 := by
      rw [expectedCredit_eq_sum]
      exact ledgerSum_fresh s u.id hnone
    rw [if_pos ha, h0]
  · rw [consistencyCheck_users, consistencyCheck_users, htx]
    generalize s.users = l at hus
    generalize s2.users = l2 at hus
    induction l generalizing l2 with
    | nil =>
      cases l2 with
      | nil => rfl
      | cons a l2 => simp at hus
    | cons a l ih =>
      cases l2 with
      | nil => simp at hus
      | cons a2 l2 =>
        simp only [List.map_cons, List.cons.injEq, User.mk.injEq, true_and] at hus
        obtain ⟨⟨h1, h2, h3, h4, h5, h6, h7, h8⟩, hrest⟩ := hus
        have ihr := ih l2 hrest
        rw [List.map_cons, List.map_cons]
        by_cases ha : a.active = true
        · have ha2 : a2.active = true := by rw [h8]; exact ha
          have he : ({ a2 with credit := expectedCredit s.transactions a2.id } : User) =
              { a with credit := expectedCredit s.transactions a.id } := by
            rw [User.mk.injEq]
            exact ⟨h1, h2, h3, by rw [h1], h4, h5, h6, h7, h8⟩
          rw [if_pos ha, if_pos ha2, he, List.filter_cons, List.filter_cons, ihr]
        · have ha2 : ¬ a2.active = true := by rw [h8]; exact ha
          rw [if_neg ha, if_neg ha2, List.filter_cons, List.filter_cons, if_neg ha, if_neg ha2,
            ihr]

/-- C10 (audit convergence), evaluated on the job: an active account has the
stored credit 100.005 and one ledger entry, a recharge of 100. The test
`Math.abs(user.credit - expectedCredit) > 0.01` is false, the job does not
write the account, and after the run its credit is still 100.005, not the sum
100 of its ledger amounts. -/
theorem consistencyCheckOn_leaves_small_drift :
    driftedAccount.active = true ∧
      expectedCreditOf [recharge100Entry] driftedAccount.id = 100 ∧
      driftedAccount.credit ≠ 100 ∧
      inconsistent driftedAccount.credit 100 = false ∧
      consistencyCheckOn [driftedAccount] [recharge100Entry] = [driftedAccount] := by
  have he : expectedCreditOf [recharge100Entry] driftedAccount.id = 100 := by
    simp [expectedCreditOf, recharge100Entry, driftedAccount]
  have hi : inconsistent driftedAccount.credit 100 = false := by
    simp only [inconsistent, driftedAccount, decide_eq_false_iff_not, not_lt, gt_iff_lt]
    rw [abs_le]
    constructor <;> norm_num
  refine ⟨rfl, he, by norm_num [driftedAccount], hi, ?_⟩
  have ha : driftedAccount.active = true := rfl
  simp only [consistencyCheckOn, List.map_cons, List.map_nil, he]
  rw [if_pos ha, hi]
  rfl

/-- C27 (the audit erases the initial credit), evaluated on the job: an active
account without ledger entries was created with the credit 0.005. The test
`Math.abs(user.credit - expectedCredit) > 0.01` is false, so after the run the
credit is still 0.005 and not 0; created with 0.0025 instead, the same account
has 0.0025 after the run, so the credit after the run still depends on the
credit the account was created with. Created with 500 it has 0 after the run. -/
theorem consistencyCheckOn_keeps_small_credit :
    pennyAccount.active = true ∧
      expectedCreditOf [] pennyAccount.id = 0 ∧
      pennyAccount.credit ≠ 0 ∧
      consistencyCheckOn [pennyAccount] [] = [pennyAccount] ∧
      consistencyCheckOn [{ pennyAccount with credit := 1 / 400 }] [] =
        [{ pennyAccount with credit := 1 / 400 }] ∧
      consistencyCheckOn [{ pennyAccount with credit := 500 }] [] =
        [{ pennyAccount with credit := 0 }] := by
  have he : expectedCreditOf [] pennyAccount.id = 0 := rfl
  have h1 : inconsistent (1 / 200) 0 = false := by
    simp only [inconsistent, decide_eq_false_iff_not, not_lt, gt_iff_lt]
    rw [abs_le]
    constructor <;> norm_num
  have h2 : inconsistent (1 / 400) 0 = false := by
    simp only [inconsistent, decide_eq_false_iff_not, not_lt, gt_iff_lt]
    rw [abs_le]
    constructor <;> norm_num
  have h3 : inconsistent 500 0 = true := by
    simp only [inconsistent, decide_eq_true_eq, gt_iff_lt]
    norm_num
  have ha : pennyAccount.active = true := rfl
  have hc : pennyAccount.credit = 1 / 200 := rfl
  refine ⟨rfl, he, by norm_num [pennyAccount], ?_, ?_, ?_⟩
  · simp only [consistencyCheckOn, List.map_cons, List.map_nil, he]
    rw [if_pos ha, hc, h1]
    rfl
  · simp only [consistencyCheckOn, List.map_cons, List.map_nil, he]
    rw [if_pos ha, h2]
    rfl
  · simp only [consistencyCheckOn, List.map_cons, List.map_nil, he]
    rw [if_pos ha, h3]
    rfl

/-- C28 (audit idempotence): running the consistency check twice in succession
gives the store that one run gives, and in the second run the test is false
for every active user, so no user is written. -/
theorem consistencyCheck_idempotent (s : Store) :
    consistencyCheck (consistencyCheck s) = consistencyCheck s ∧
      ∀ u ∈ (consistencyCheck s).users, u.active = true →
        inconsistent u.credit (expectedCredit (consistencyCheck s).transactions u.id) =
          false := by
  have hsecond : ∀ u ∈ (consistencyCheck s).users, u.active = true →
      inconsistent u.credit (expectedCredit (consistencyCheck s).transactions u.id) =
        false := by
    intro u hu ha
    rw [consistencyCheck_users, List.mem_map] at hu
    obtain ⟨u0, -, hu0⟩ := hu
    have htx : (consistencyCheck s).transactions = s.transactions := rfl
    rw [htx]
    by_cases ha0 : u0.active = true
    · simp only [ha0, if_true] at hu0
      subst hu0
      have : ¬ (inconsistent (expectedCredit s.transactions u0.id)
          (expectedCredit s.transactions u0.id) = true) := by
        rw [inconsistent_iff]; simp
      simpa using this
    · simp only [ha0, Bool.false_eq_true, if_false] at hu0
      subst hu0
      exact absurd ha ha0
  refine ⟨?_, hsecond⟩
  have hmap : (consistencyCheck s).users.map (fun user =>
      if user.active then
        if inconsistent user.credit
            (expectedCredit (consistencyCheck s).transactions user.id) then
          { user with credit := expectedCredit (consistencyCheck s).transactions user.id }
        else user
      else user) = (consistencyCheck s).users := by
    conv_rhs => rw [← List.map_id (consistencyCheck s).users]
    apply List.map_congr_left
    intro u hu
    by_cases ha : u.active = true
    · simp only [ha, if_true, hsecond u hu ha, Bool.false_eq_true, if_false, id]
    · simp only [ha, Bool.false_eq_true, if_false, id]
  show ({ consistencyCheck s with users := _ } : Store) = consistencyCheck s
  rw [hmap]

theorem contains_iff_mem (l : List (Option String)) (a : Option String) :
    l.contains a = true ↔ a ∈ l := by
  simp

/-- C26 (pruning of the offline queue after a pull): for every queue and every
transaction list of a pull answer, the queue after the answer is processed is
the queue filtered, in its order, to the items that have no (truthy)
`offlineId` or whose `offlineId` is not among the `offlineId`s of the list;
when the list is missing, empty or without a truthy `offlineId` the queue is
unchanged. -/
theorem pruneOfflineTransactions_filter (q : List SyncItem) :
    (∀ ts : List Transaction,
      pruneOfflineTransactions q (some ts) =
        q.filter (fun t => !truthy t.offlineId ||
          !(ts.map (fun e => e.offlineId)).contains t.offlineId)) ∧
      (∀ ts : List Transaction, (ts = [] ∨ ∀ e ∈ ts, truthy e.offlineId = false) →
        pruneOfflineTransactions q (some ts) = q) ∧
      pruneOfflineTransactions q none = q := by
  have hmem : ∀ (ts : List Transaction) (t : SyncItem), truthy t.offlineId = true →
      ((((ts.map (fun e => e.offlineId)).filter truthy).dedup.contains t.offlineId) =
        (ts.map (fun e => e.offlineId)).contains t.offlineId) := by
    intro ts t ht
    rw [Bool.eq_iff_iff]
    simp only [contains_iff_mem, List.mem_dedup, List.mem_filter, ht, and_true]
  have hempty : ∀ (ts : List Transaction),
      ¬ (((ts.map (fun e => e.offlineId)).filter truthy).dedup.length > 0) →
      ∀ t : SyncItem, truthy t.offlineId = true →
        (ts.map (fun e => e.offlineId)).contains t.offlineId = false := by
    intro ts hlen t ht
    have hnil : ((ts.map (fun e => e.offlineId)).filter truthy).dedup = [] := by
      cases h : ((ts.map (fun e => e.offlineId)).filter truthy).dedup with
      | nil => rfl
      | cons a l => rw [h] at hlen; simp at hlen
    rw [← hmem ts t ht, hnil]
    rfl
  have hfirst : ∀ ts : List Transaction,
      pruneOfflineTransactions q (some ts) =
        q.filter (fun t => !truthy t.offlineId ||
          !(ts.map (fun e => e.offlineId)).contains t.offlineId) := by
    intro ts
    unfold pruneOfflineTransactions
    dsimp only
    split
    · split
      · apply List.filter_congr
        intro t _
        cases ht : truthy t.offlineId with
        | false => rfl
        | true => rw [hmem ts t ht]
      · rename_i hlen
        symm
        rw [List.filter_eq_self]
        intro t _
        cases ht : truthy t.offlineId with
        | false => rfl
        | true => rw [hempty ts hlen t ht]; rfl
    · rename_i hts
      have : ts = [] := by
        cases ts with
        | nil => rfl
        | cons a l => simp at hts
      subst this
      symm
      rw [List.filter_eq_self]
      intro t _
      simp
  refine ⟨hfirst, ?_, rfl⟩
  intro ts hts
  rw [hfirst, List.filter_eq_self]
  intro t _
  cases ht : truthy t.offlineId with
  | false => rfl
  | true =>
    have : (ts.map (fun e => e.offlineId)).contains t.offlineId = false := by
      rcases hts with h | h
      · subst h; rfl
      · rw [← Bool.not_eq_true, contains_iff_mem, List.mem_map]
        rintro ⟨e, he, hk⟩
        have := h e he
        rw [hk, ht] at this
        exact absurd this (by decide)
    rw [this]
    rfl

/-- C29 as stated fails: the terminal is online with two queued items, the push
is answered with two `success` results, and the reload of the users that
follows throws; the queue still holds the two items. -/
theorem syncOfflineTransactions_keeps_queue_when_reload_fails :
    sampleClient.isOffline = false ∧
      (syncOfflineTransactions sampleClient (some offlineBatchResults) none).offlineTransactions
        = [purchase45, recharge100] := by
  decide

/-- C29 as amended: for every non-empty offline queue in online mode, when the
push request and the reload of the users that follows it both return, the
queue becomes empty whatever the statuses in the answer of the push are (items
reported as `error` are not kept) and the users are the reloaded ones; when
the push request or the reload throws, the state is left as it is. -/
theorem syncOfflineTransactions_outcomes (c : ClientState) (hq : c.offlineTransactions ≠ [])
    (hon : c.isOffline = false) :
    (∀ (results : List SyncResult) (users : List User),
      syncOfflineTransactions c (some results) (some users) =
        { c with users := users, offlineTransactions := [] }) ∧
      (∀ reload : Option (List User), syncOfflineTransactions c none reload = c) ∧
      (∀ push : Option (List SyncResult), syncOfflineTransactions c push none = c) := by
  have hlen : (c.offlineTransactions.length == 0) = false := by
    cases h : c.offlineTransactions with
    | nil => exact absurd h hq
    | cons a l => rfl
  refine ⟨?_, ?_, ?_⟩
  · intro results users
    simp only [syncOfflineTransactions, hlen, hon, Bool.or_self, Bool.false_eq_true, if_false]
  · intro reload
    simp only [syncOfflineTransactions, hlen, hon, Bool.or_self, Bool.false_eq_true, if_false]
  · intro push
    cases push <;>
      simp only [syncOfflineTransactions, hlen, hon, Bool.or_self, Bool.false_eq_true, if_false]

/-- Witness for C29 as amended: the push answers with one `error` result among
its results and the reload returns; the queue is empty afterwards. -/
theorem syncOfflineTransactions_outcomes_witness :
    syncOfflineTransactions sampleClient (some mixedResults) (some [alice]) =
      { sampleClient with users := [alice], offlineTransactions := [] } :=
  (syncOfflineTransactions_outcomes sampleClient (by decide) (by decide)).1 mixedResults [alice]

/-! ## Lemmas on the user map of the terminal application -/

theorem mapSet_keys (m : List (ObjectId × User)) (k : ObjectId) (v : User) (k1 : ObjectId) :
    k1 ∈ (mapSet m k v).map Prod.fst ↔ k1 = k ∨ k1 ∈ m.map Prod.fst := by
  induction m with
  | nil => simp [mapSet]
  | cons p rest ih =>
    obtain ⟨k0, v0⟩ := p
    simp only [mapSet]
    by_cases h : k0 = k
    · have hb : (k0 == k) = true := by simpa using h
      simp only [hb, if_true, List.map_cons, List.mem_cons]
      constructor
      · rintro (e | e)
        · exact Or.inl e
        · exact Or.inr (Or.inr e)
      · rintro (e | e | e)
        · exact Or.inl e
        · exact Or.inl (e.trans h)
        · exact Or.inr e
    · have hb : (k0 == k) = false := by simpa using h
      simp only [hb, Bool.false_eq_true, if_false, List.map_cons, List.mem_cons, ih]
      constructor
      · rintro (e | e | e)
        · exact Or.inr (Or.inl e)
        · exact Or.inl e
        · exact Or.inr (Or.inr e)
      · rintro (e | e | e)
        · exact Or.inr (Or.inl e)
        · exact Or.inl e
        · exact Or.inr (Or.inr e)

theorem mapSet_nodup (m : List (ObjectId × User)) (k : ObjectId) (v : User)
    (hnd : (m.map Prod.fst).Nodup) : ((mapSet m k v).map Prod.fst).Nodup := by
  induction m with
  | nil => simp [mapSet]
  | cons p rest ih =>
    obtain ⟨k0, v0⟩ := p
    simp only [List.map_cons, List.nodup_cons] at hnd
    obtain ⟨hk0, hrest⟩ := hnd
    simp only [mapSet]
    by_cases h : k0 = k
    · have hb : (k0 == k) = true := by simpa using h
      simp only [hb, if_true, List.map_cons, List.nodup_cons]
      exact ⟨by rw [← h]; exact hk0, hrest⟩
    · have hb : (k0 == k) = false := by simpa using h
      simp only [hb, Bool.false_eq_true, if_false, List.map_cons, List.nodup_cons]
      refine ⟨?_, ih hrest⟩
      rw [mapSet_keys]
      rintro (e | e)
      · exact h e
      · exact hk0 e

theorem mapSet_mem (m : List (ObjectId × User)) (k : ObjectId) (v : User)
    (hnd : (m.map Prod.fst).Nodup) (p : ObjectId × User) :
    p ∈ mapSet m k v ↔ p = (k, v) ∨ (p ∈ m ∧ p.1 ≠ k) := by
  induction m with
  | nil => simp [mapSet]
  | cons p0 rest ih =>
    obtain ⟨k0, v0⟩ := p0
    simp only [List.map_cons, List.nodup_cons] at hnd
    obtain ⟨hk0, hrest⟩ := hnd
    simp only [mapSet]
    by_cases h : k0 = k
    · have hb : (k0 == k) = true := by simpa using h
      simp only [hb, if_true, List.mem_cons]
      constructor
      · rintro (e | e)
        · exact Or.inl e
        · refine Or.inr ⟨Or.inr e, ?_⟩
          intro hp
          exact hk0 (List.mem_map.mpr ⟨p, e, by rw [hp, h]⟩)
      · rintro (e | ⟨e | e, hne⟩)
        · exact Or.inl e
        · exact absurd (by rw [e]; exact h) hne
        · exact Or.inr e
    · have hb : (k0 == k) = false := by simpa using h
      simp only [hb, Bool.false_eq_true, if_false, List.mem_cons, ih hrest]
      constructor
      · rintro (e | e | ⟨e, hne⟩)
        · exact Or.inr ⟨Or.inl e, by rw [e]; exact h⟩
        · exact Or.inl e
        · exact Or.inr ⟨Or.inr e, hne⟩
      · rintro (e | ⟨e | e, hne⟩)
        · exact Or.inr (Or.inl e)
        · exact Or.inl e
        · exact Or.inr (Or.inr ⟨e, hne⟩)

theorem foldl_mapSet_nodup (l : List User) (m : List (ObjectId × User))
    (hnd : (m.map Prod.fst).Nodup) :
    ((l.foldl (fun m user => mapSet m user.id user) m).map Prod.fst).Nodup := by
  induction l generalizing m with
  | nil => exact hnd
  | cons u l ih => exact ih _ (mapSet_nodup m u.id u hnd)

theorem foldl_mapSet_mem (l : List User) (m : List (ObjectId × User))
    (hnd : (m.map Prod.fst).Nodup) (p : ObjectId × User) :
    p ∈ l.foldl (fun m user => mapSet m user.id user) m ↔
      (∃ l1 l2, l = l1 ++ p.2 :: l2 ∧ p.1 = p.2.id ∧ ∀ v ∈ l2, v.id ≠ p.1) ∨
        (p ∈ m ∧ ∀ v ∈ l, v.id ≠ p.1) := by
  induction l generalizing m with
  | nil => simp
  | cons u l ih =>
    rw [List.foldl_cons, ih _ (mapSet_nodup m u.id u hnd), mapSet_mem m u.id u hnd]
    constructor
    · rintro (⟨l1, l2, h1, h2, h3⟩ | ⟨e | ⟨e, hne⟩, hall⟩)
      · exact Or.inl ⟨u :: l1, l2, by rw [h1]; rfl, h2, h3⟩
      · refine Or.inl ⟨[], l, ?_, ?_, ?_⟩
        · rw [e]; rfl
        · rw [e]
        · exact hall
      · refine Or.inr ⟨e, ?_⟩
        intro v hv
        rcases List.mem_cons.mp hv with h | h
        · rw [h]; exact fun e2 => hne e2.symm
        · exact hall v h
    · rintro (⟨l1, l2, h1, h2, h3⟩ | ⟨e, hall⟩)
      · cases l1 with
        | nil =>
          simp only [List.nil_append, List.cons.injEq] at h1
          obtain ⟨hu, hl⟩ := h1
          refine Or.inr ⟨Or.inl ?_, ?_⟩
          · exact Prod.ext (by rw [h2, hu]) hu.symm
          · rw [hl]; exact h3
        | cons a l1 =>
          simp only [List.cons_append, List.cons.injEq] at h1
          exact Or.inl ⟨l1, l2, h1.2, h2, h3⟩
      · refine Or.inr ⟨Or.inr ⟨e, ?_⟩, fun v hv => hall v (List.mem_cons_of_mem _ hv)⟩
        exact fun e2 => hall u (List.mem_cons_self _ _) e2.symm

theorem last_with_id (l : List User) (k : ObjectId) (hk : k ∈ l.map (fun u => u.id)) :
    ∃ l1 u l2, l = l1 ++ u :: l2 ∧ u.id = k ∧ ∀ v ∈ l2, v.id ≠ k := by
  induction l with
  | nil => simp at hk
  | cons a l ih =>
    by_cases hin : k ∈ l.map (fun u => u.id)
    · obtain ⟨l1, u, l2, h1, h2, h3⟩ := ih hin
      exact ⟨a :: l1, u, l2, by rw [h1]; rfl, h2, h3⟩
    · have ha : a.id = k := by
        simp only [List.map_cons, List.mem_cons] at hk
        rcases hk with h | h
        · exact h.symm
        · exact absurd h hin
      refine ⟨[], a, l, rfl, ha, ?_⟩
      intro v hv e
      exact hin (List.mem_map.mpr ⟨v, hv, e⟩)

/-- C30 (merge of the users by id): for every previous user list with pairwise
distinct ids and every non-empty list of updated users, the merged list has
pairwise distinct ids, holds an id exactly when the id occurs in one of the
two lists, holds for an id among the updates the last updated user with that
id, and holds for any other id exactly the previous user with that id. -/
theorem updateUsers_merge (prev updated : List User)
    (hnd : (prev.map (fun u => u.id)).Nodup) (hne : updated ≠ []) :
    ((updateUsers prev (some updated)).map (fun u => u.id)).Nodup ∧
      (∀ k, k ∈ (updateUsers prev (some updated)).map (fun u => u.id) ↔
        k ∈ prev.map (fun u => u.id) ∨ k ∈ updated.map (fun u => u.id)) ∧
      (∀ u ∈ updateUsers prev (some updated), u.id ∈ updated.map (fun v => v.id) →
        ∃ l1 l2, updated = l1 ++ u :: l2 ∧ ∀ v ∈ l2, v.id ≠ u.id) ∧
      (∀ u : User, u.id ∉ updated.map (fun v => v.id) →
        (u ∈ updateUsers prev (some updated) ↔ u ∈ prev)) := by
  have hlen : updated.length > 0 := List.length_pos.mpr hne
  have hdef : updateUsers prev (some updated) =
      (updated.foldl (fun m user => mapSet m user.id user)
        (prev.foldl (fun m user => mapSet m user.id user) [])).map (fun entry => entry.2) := by
    simp only [updateUsers, hlen, if_true, mergeUsers]
  have hnil : (([] : List (ObjectId × User)).map Prod.fst).Nodup := List.nodup_nil
  have hnd1 := foldl_mapSet_nodup prev [] hnil
  have hnd2 := foldl_mapSet_nodup updated _ hnd1
  have hm1 : ∀ p : ObjectId × User,
      p ∈ prev.foldl (fun m user => mapSet m user.id user) [] ↔
        ∃ l1 l2, prev = l1 ++ p.2 :: l2 ∧ p.1 = p.2.id ∧ ∀ v ∈ l2, v.id ≠ p.1 := by
    intro p
    rw [foldl_mapSet_mem prev [] hnil p]
    simp
  have hm2 := foldl_mapSet_mem updated _ hnd1
  have hkey : ∀ p ∈ updated.foldl (fun m user => mapSet m user.id user)
      (prev.foldl (fun m user => mapSet m user.id user) []), p.1 = p.2.id := by
    intro p hp
    rcases (hm2 p).mp hp with ⟨_, _, _, h, _⟩ | ⟨h, _⟩
    · exact h
    · obtain ⟨_, _, _, h2, _⟩ := (hm1 p).mp h
      exact h2
  have hprev : ∀ u ∈ prev, (u.id, u) ∈ prev.foldl (fun m user => mapSet m user.id user) [] := by
    intro u hu
    obtain ⟨l1, l2, hsplit⟩ := List.append_of_mem hu
    refine (hm1 (u.id, u)).mpr ⟨l1, l2, hsplit, rfl, ?_⟩
    intro v hv e
    rw [hsplit, List.map_append, List.map_cons] at hnd
    have h2 := (List.nodup_append.mp hnd).2.1
    rw [List.nodup_cons] at h2
    exact h2.1 (List.mem_map.mpr ⟨v, hv, e⟩)
  have hmemU : ∀ u : User, u ∈ updateUsers prev (some updated) ↔
      (u.id, u) ∈ updated.foldl (fun m user => mapSet m user.id user)
        (prev.foldl (fun m user => mapSet m user.id user) []) := by
    intro u
    rw [hdef, List.mem_map]
    constructor
    · rintro ⟨p, hp, e⟩
      have := hkey p hp
      have hpe : p = (u.id, u) := Prod.ext (by rw [this, e]) e
      rw [← hpe]; exact hp
    · intro h
      exact ⟨(u.id, u), h, rfl⟩
  refine ⟨?_, ?_, ?_, ?_⟩
  · have : (updateUsers prev (some updated)).map (fun u => u.id) =
        (updated.foldl (fun m user => mapSet m user.id user)
          (prev.foldl (fun m user => mapSet m user.id user) [])).map Prod.fst := by
      rw [hdef, List.map_map]
      apply List.map_congr_left
      intro p hp
      exact (hkey p hp).symm
    rw [this]
    exact hnd2
  · intro k
    constructor
    · intro hk
      obtain ⟨u, hu, e⟩ := List.mem_map.mp hk
      rcases (hm2 (u.id, u)).mp ((hmemU u).mp hu) with ⟨l1, l2, h1, _, _⟩ | ⟨h, _⟩
      · right
        rw [← e, h1]
        simp
      · left
        obtain ⟨l1, l2, h1, _, _⟩ := (hm1 (u.id, u)).mp h
        rw [← e, h1]
        simp
    · intro hk
      by_cases hin : k ∈ updated.map (fun u => u.id)
      · obtain ⟨l1, u, l2, h1, h2, h3⟩ := last_with_id updated k hin
        refine List.mem_map.mpr ⟨u, (hmemU u).mpr ((hm2 (u.id, u)).mpr (Or.inl ?_)), h2⟩
        exact ⟨l1, l2, h1, rfl, by rw [h2]; exact h3⟩
      · have hk1 : k ∈ prev.map (fun u => u.id) := by
          rcases hk with h | h
          · exact h
          · exact absurd h hin
        obtain ⟨u, hu, e⟩ := List.mem_map.mp hk1
        refine List.mem_map.mpr ⟨u, (hmemU u).mpr ((hm2 (u.id, u)).mpr (Or.inr ?_)), e⟩
        refine ⟨hprev u hu, ?_⟩
        intro v hv e2
        exact hin (List.mem_map.mpr ⟨v, hv, by rw [e2, ← e]⟩)
  · intro u hu hin
    rcases (hm2 (u.id, u)).mp ((hmemU u).mp hu) with ⟨l1, l2, h1, _, h3⟩ | ⟨_, hall⟩
    · exact ⟨l1, l2, h1, h3⟩
    · obtain ⟨v, hv, e⟩ := List.mem_map.mp hin
      exact absurd e (hall v hv)
  · intro u hnot
    constructor
    · intro hu
      rcases (hm2 (u.id, u)).mp ((hmemU u).mp hu) with ⟨l1, l2, h1, _, _⟩ | ⟨h, _⟩
      · exfalso
        apply hnot
        rw [h1]
        simp
      · obtain ⟨l1, l2, h1, _, _⟩ := (hm1 (u.id, u)).mp h
        rw [h1]
        simp
    · intro hu
      refine (hmemU u).mpr ((hm2 (u.id, u)).mpr (Or.inr ⟨hprev u hu, ?_⟩))
      intro v hv e
      exact hnot (List.mem_map.mpr ⟨v, hv, e⟩)

/-- Witness for C30: two previous users, and updates that name account B twice
and bring a new account. -/
theorem updateUsers_merge_witness :
    ((updateUsers [alice, bob]
        (some [{ bob with credit := 1 }, dave, { bob with credit := 2 }])).map
        (fun u => u.id)).Nodup ∧
      updateUsers [alice, bob] (some [{ bob with credit := 1 }, dave, { bob with credit := 2 }])
        = [alice, { bob with credit := 2 }, dave] :=
  ⟨(updateUsers_merge [alice, bob] [{ bob with credit := 1 }, dave, { bob with credit := 2 }]
      (by decide) (by decide)).1, by decide⟩

end Coffee
